import Mathlib

/-!
# cocos2d-x `NavMesh`: slot manager, loader and path query

A shallow embedding of `cocos/navmesh/CCNavMesh.cpp`.

* Pointers are `Option Nat`: `none` is `nullptr`, `some h` is the address of a live object.
* An operation that dereferences a null pointer, or reads an indeterminate value, has no
  defined result; such an operation returns `none` (the outer `Option` of its result type).
* Calls made on collaborators whose code lives outside this file (agents, obstacles, the
  crowd, the tile cache, the C file API) are recorded, in program order, in a list of
  events returned next to the new state.
* Results of collaborators (allocators, `init` status codes, Detour queries) are inputs
  of the model: every possible behaviour of a collaborator is a possible value of them.
-/

namespace cocos2d

/-- Pointer value: `none` is `nullptr`. -/
abbrev Ptr := Option Nat

/-- Source constant `MAX_AGENTS`. -/
def MAX_AGENTS : Nat := 128

/-- Source constant `TILECACHESET_MAGIC`, spelled as in the source. -/
def TILECACHESET_MAGIC : Int :=
  ((('T'.toNat <<< 24) ||| ('S'.toNat <<< 16) ||| ('E'.toNat <<< 8) ||| 'T'.toNat : Nat) : Int)

/-- Source constant `TILECACHESET_VERSION`. -/
def TILECACHESET_VERSION : Int := 1

/-- Calls the manager makes on agents, obstacles and the crowd, each with its receiver. -/
inductive Call where
  | agentAddTo (agent : Nat) (crowd : Ptr)
  | agentRemoveFrom (agent : Nat) (crowd : Ptr)
  | agentSetNavMeshQuery (agent : Nat) (query : Ptr)
  | agentRetain (agent : Nat)
  | agentRelease (agent : Nat)
  | agentPreUpdate (agent : Nat) (dt : ℚ)
  | agentPostUpdate (agent : Nat) (dt : ℚ)
  | obstacleAddTo (obstacle : Nat) (tileCache : Ptr)
  | obstacleRemoveFrom (obstacle : Nat) (tileCache : Ptr)
  | obstacleRetain (obstacle : Nat)
  | obstacleRelease (obstacle : Nat)
  | obstaclePreUpdate (obstacle : Nat) (dt : ℚ)
  | obstaclePostUpdate (obstacle : Nat) (dt : ℚ)
  | crowdUpdate (crowd : Nat) (dt : ℚ)
  deriving DecidableEq, Repr

/-- Data members of the class `NavMesh` that the modelled methods read or write. -/
structure NavMesh where
  navMesh : Ptr
  navMeshQuery : Ptr
  crowed : Ptr
  tileCache : Ptr
  allocator : Bool
  compressor : Bool
  meshProcess : Bool
  agentList : List Ptr
  obstacleList : List Ptr
  deriving DecidableEq, Repr

/-- Index of the first element equal to `v`, as `std::find` over a vector; `none` is `end()`. -/
def find : List Ptr → Ptr → Option Nat
  | [], _ => none
  | x :: rest, v => if x = v then some 0 else (find rest v).map (· + 1)

/-- The members of `TileCacheSetHeader` that `read` inspects itself. `meshParams` and
`cacheParams` are otherwise only handed to the `init` calls, whose status is an input of
the model; `maxObstacles` is the element count handed to `std::vector::assign`. -/
structure TileCacheSetHeader where
  magic : Int
  version : Int
  numTiles : Int
  walkableRadius : ℚ
  maxObstacles : Nat
  deriving DecidableEq, Repr

/-- Source struct `TileCacheTileHeader`. -/
structure TileCacheTileHeader where
  tileRef : Nat
  dataSize : Int
  deriving DecidableEq, Repr

/-- One tile record of the file: its header and the payload bytes that follow it. -/
structure TileRecord where
  header : TileCacheTileHeader
  data : List Nat
  deriving DecidableEq, Repr

/-- Contents of a tile-set file: the set header and the tile records after it. -/
structure File where
  header : TileCacheSetHeader
  tiles : List TileRecord
  deriving DecidableEq, Repr

/-- What the collaborators of `create` and `read` return: the file system, the Detour
allocators and the `init` calls. `dtAlloc i size` and `addTile i data size` are the
results of the calls made in loop iteration `i`; `addTile` yields the tile reference
written to its out parameter (`0` when the cache refuses the tile). -/
structure Env where
  newNavMesh : Bool
  fopen : Option File
  dtAllocNavMesh : Ptr
  navMeshInit : Bool
  dtAllocTileCache : Ptr
  tileCacheInit : Bool
  dtAlloc : Nat → Int → Bool
  addTile : Nat → List Nat → Int → Nat
  dtAllocCrowd : Ptr
  crowdInit : Bool
  dtAllocNavMeshQuery : Ptr
  navMeshQueryInit : Bool

/-- Calls `read` makes on the C file API and on Detour, in program order. -/
inductive ReadCall where
  | freadHeader
  | fclose
  | dtAllocNavMesh
  | navMeshInit
  | dtAllocTileCache
  | tileCacheInit
  | freadTileHeader
  | dtAlloc (size : Int)
  | freadData (size : Int)
  | addTile (data : List Nat) (size : Int)
  | buildNavMeshTile (tile : Nat)
  | dtAllocCrowd
  | crowdInit (maxAgents : Nat) (radius : ℚ)
  | dtAllocNavMeshQuery
  | navMeshQueryInit (maxNodes : Nat)
  deriving DecidableEq, Repr

/-- Three floats, as `Vec3` and as the `float[3]` arrays of Detour; arithmetic is exact. -/
structure Vec3 where
  x : ℚ
  y : ℚ
  z : ℚ
  deriving DecidableEq, Repr

/-- Polygon reference `dtPolyRef`. -/
abbrev PolyRef := Nat

/-- The array `dtPolyRef polys[MAX_POLYS]`, by index. -/
abbrev PolyArray := Nat → PolyRef

/-- Source constant `MAX_POLYS` of `findPath`. -/
def MAX_POLYS : Nat := 256

/-- Source constant `MAX_SMOOTH` of `findPath`. -/
def MAX_SMOOTH : Nat := 2048

/-- Source constant `STEP_SIZE` of `findPath`. -/
def STEP_SIZE : ℚ := 1 / 2

/-- Source constant `SLOP` of `findPath`. -/
def SLOP : ℚ := 1 / 100

/-- Modelled from the spec: Detour helper `dtVsub` (DetourCommon.h is not among the
sources), the component-wise difference `v1 - v2` used for the movement delta toward the
steering target. -/
def dtVsub (v1 v2 : Vec3) : Vec3 := ⟨v1.x - v2.x, v1.y - v2.y, v1.z - v2.z⟩

/-- Modelled from the spec: Detour helper `dtVdot` (DetourCommon.h is not among the
sources), the dot product whose square root is the distance to the steering target. -/
def dtVdot (v1 v2 : Vec3) : ℚ := v1.x * v2.x + v1.y * v2.y + v1.z * v2.z

/-- Modelled from the spec: Detour helper `dtVmad` (DetourCommon.h is not among the
sources), the scaled add `v1 + v2 * s` that takes the movement step toward the target. -/
def dtVmad (v1 v2 : Vec3) (s : ℚ) : Vec3 := ⟨v1.x + v2.x * s, v1.y + v2.y * s, v1.z + v2.z * s⟩

/-- The Detour queries and the helpers of the navmesh utilities that `findPath` calls, as
functions of the arguments `findPath` passes (the query filter and the mesh are fixed).
Out parameters are returned; a `bool` or status result that guards them is the `Option`.
`getPolyHeight` leaves the height it is given untouched when it fails. The two flag
constants are Detour's `dtStraightPathFlags` bits. -/
structure Detour where
  DT_STRAIGHTPATH_END : Nat
  DT_STRAIGHTPATH_OFFMESH_CONNECTION : Nat
  findNearestPoly : Vec3 → Vec3 → PolyRef
  findPath : PolyRef → PolyRef → Vec3 → Vec3 → Nat → PolyArray × Int
  closestPointOnPoly : PolyRef → Vec3 → Vec3
  getSteerTarget : Vec3 → Vec3 → ℚ → PolyArray → Int → Option (Vec3 × Nat × PolyRef)
  dtMathSqrtf : ℚ → ℚ
  moveAlongSurface : PolyRef → Vec3 → Vec3 → Nat → Vec3 × List PolyRef × Int
  fixupCorridor : PolyArray → Int → Nat → List PolyRef → Int → PolyArray × Int
  fixupShortcuts : PolyArray → Int → PolyArray × Int
  getPolyHeight : PolyRef → Vec3 → Option ℚ
  inRange : Vec3 → Vec3 → ℚ → ℚ → Bool
  getOffMeshConnectionPolyEndPoints : PolyRef → PolyRef → Option (Vec3 × Vec3)

/-- Local variables of `findPath` that live across iterations of the smoothing loop,
together with the caller's vector `pathPoints`. -/
structure LoopState where
  iterPos : Vec3
  polys : PolyArray
  npolys : Int
  nsmoothPath : Nat
  pathPoints : List Vec3

/-- How one pass through the body of the smoothing loop ends: at a `break`, or at the
closing brace (the loop condition is tested next). -/
inductive Step where
  | exit (st : LoopState)
  | next (st : LoopState)

namespace NavMesh

/-- Constructor `NavMesh::NavMesh()`: every pointer member null, both vectors empty. -/
def ctor : NavMesh :=
  { navMesh := none, navMeshQuery := none, crowed := none, tileCache := none,
    allocator := false, compressor := false, meshProcess := false,
    agentList := [], obstacleList := [] }

/-- Method `NavMesh::removeNavMeshObstacle`. -/
def removeNavMeshObstacle (s : NavMesh) (obstacle : Ptr) : Option (NavMesh × List Call) :=
  match find s.obstacleList obstacle with
  | none => some (s, [])
  | some i =>
    match obstacle with
    | none => none
    | some o =>
      some ({ s with obstacleList := s.obstacleList.set i none },
            [Call.obstacleRemoveFrom o s.tileCache, Call.obstacleRelease o])

/-- Method `NavMesh::addNavMeshObstacle`. -/
def addNavMeshObstacle (s : NavMesh) (obstacle : Ptr) : Option (NavMesh × List Call) :=
  match find s.obstacleList none with
  | none => some (s, [])
  | some i =>
    match obstacle with
    | none => none
    | some o =>
      some ({ s with obstacleList := s.obstacleList.set i (some o) },
            [Call.obstacleAddTo o s.tileCache, Call.obstacleRetain o])

/-- Method `NavMesh::removeNavMeshAgent`. -/
def removeNavMeshAgent (s : NavMesh) (agent : Ptr) : Option (NavMesh × List Call) :=
  match find s.agentList agent with
  | none => some (s, [])
  | some i =>
    match agent with
    | none => none
    | some a =>
      some ({ s with agentList := s.agentList.set i none },
            [Call.agentRemoveFrom a s.crowed, Call.agentSetNavMeshQuery a none,
             Call.agentRelease a])

/-- Method `NavMesh::addNavMeshAgent`. -/
def addNavMeshAgent (s : NavMesh) (agent : Ptr) : Option (NavMesh × List Call) :=
  match find s.agentList none with
  | none => some (s, [])
  | some i =>
    match agent with
    | none => none
    | some a =>
      some ({ s with agentList := s.agentList.set i (some a) },
            [Call.agentAddTo a s.crowed, Call.agentSetNavMeshQuery a s.navMeshQuery,
             Call.agentRetain a])

/-- Range-based `for (auto iter : list) iter->method(dt);` with no test of `iter`: the
call on a null element is a null dereference. -/
def forEach (method : Nat → ℚ → Call) (dt : ℚ) : List Ptr → Option (List Call)
  | [] => some []
  | none :: _ => none
  | some e :: rest => (forEach method dt rest).map (method e dt :: ·)

/-- Method `NavMesh::update`. -/
def update (s : NavMesh) (dt : ℚ) : Option (List Call) :=
  match forEach Call.agentPreUpdate dt s.agentList with
  | none => none
  | some c1 =>
    match forEach Call.obstaclePreUpdate dt s.obstacleList with
    | none => none
    | some c2 =>
      let c3 : List Call :=
        match s.crowed with
        | none => []
        | some c => [Call.crowdUpdate c dt]
      match forEach Call.agentPostUpdate dt s.agentList with
      | none => none
      | some c4 =>
        match forEach Call.obstaclePostUpdate dt s.obstacleList with
        | none => none
        | some c5 => some (c1 ++ c2 ++ c3 ++ c4 ++ c5)

/-- The tile loop of `NavMesh::read`, `for (int i = 0; i < header.numTiles; ++i)`, with
`n` iterations left and `tiles` the part of the file not read yet. An `fread` at the end
of the file leaves `tileHeader` indeterminate, and the test that follows reads it. -/
def readTiles (env : Env) : Nat → Nat → List TileRecord → Option (List ReadCall)
  | 0, _, _ => some []
  | _ + 1, _, [] => none
  | n + 1, i, r :: rest =>
    if r.header.tileRef = 0 ∨ r.header.dataSize = 0 then
      some [ReadCall.freadTileHeader]
    else if env.dtAlloc i r.header.dataSize = false then
      some [ReadCall.freadTileHeader, ReadCall.dtAlloc r.header.dataSize]
    else
      let tile := env.addTile i r.data r.header.dataSize
      let build : List ReadCall := if tile ≠ 0 then [ReadCall.buildNavMeshTile tile] else []
      (readTiles env n (i + 1) rest).map
        ([ReadCall.freadTileHeader, ReadCall.dtAlloc r.header.dataSize,
          ReadCall.freadData r.header.dataSize,
          ReadCall.addTile r.data r.header.dataSize] ++ build ++ ·)

/-- The part of `NavMesh::read` after the tile loop: crowd, query object, slot arrays. -/
def readTail (s : NavMesh) (env : Env) (header : TileCacheSetHeader) (pre : List ReadCall) :
    Option (Bool × NavMesh × List ReadCall) :=
  match env.dtAllocCrowd with
  | none => none
  | some c =>
    match env.dtAllocNavMeshQuery with
    | none => none
    | some q =>
      some (true,
        { s with crowed := some c, navMeshQuery := some q,
                 agentList := List.replicate MAX_AGENTS none,
                 obstacleList := List.replicate header.maxObstacles none },
        pre ++ [ReadCall.dtAllocCrowd, ReadCall.crowdInit MAX_AGENTS header.walkableRadius,
                ReadCall.dtAllocNavMeshQuery, ReadCall.navMeshQueryInit 2048])

/-- Method `NavMesh::read`: the returned `bool`, the object afterwards, the calls made. -/
def read (this : NavMesh) (env : Env) : Option (Bool × NavMesh × List ReadCall) :=
  match env.fopen with
  | none => some (false, this, [])
  | some file =>
    if file.header.magic ≠ TILECACHESET_MAGIC then
      some (false, this, [ReadCall.freadHeader, ReadCall.fclose])
    else if file.header.version ≠ TILECACHESET_VERSION then
      some (false, this, [ReadCall.freadHeader, ReadCall.fclose])
    else
      let s1 := { this with navMesh := env.dtAllocNavMesh }
      let e1 := [ReadCall.freadHeader, ReadCall.dtAllocNavMesh]
      if env.dtAllocNavMesh = none then some (false, s1, e1 ++ [ReadCall.fclose])
      else if env.navMeshInit = false then
        some (false, s1, e1 ++ [ReadCall.navMeshInit, ReadCall.fclose])
      else
        let s2 := { s1 with tileCache := env.dtAllocTileCache }
        let e2 := e1 ++ [ReadCall.navMeshInit, ReadCall.dtAllocTileCache]
        if env.dtAllocTileCache = none then some (false, s2, e2 ++ [ReadCall.fclose])
        else
          let s3 := { s2 with allocator := true, compressor := true, meshProcess := true }
          let e3 := e2 ++ [ReadCall.tileCacheInit]
          if env.tileCacheInit = false then some (false, s3, e3 ++ [ReadCall.fclose])
          else
            match readTiles env file.header.numTiles.toNat 0 file.tiles with
            | none => none
            | some tileCalls => readTail s3 env file.header (e3 ++ tileCalls)

/-- Method `NavMesh::initWithFilePath`. -/
def initWithFilePath (this : NavMesh) (env : Env) : Option (Bool × NavMesh × List ReadCall) :=
  match read this env with
  | none => none
  | some (false, s, calls) => some (false, s, calls)
  | some (true, s, calls) => some (true, s, calls)

/-- Static method `NavMesh::create`: the returned pointer, as the object it points to
(`some none` is a null return). -/
def create (env : Env) : Option (Option NavMesh) :=
  if env.newNavMesh = false then some none
  else
    match initWithFilePath ctor env with
    | none => none
    | some (true, s, _) => some (some s)
    | some (false, _, _) => some none

/-- The guarded `pathPoints.push_back(p); nsmoothPath++;` of `findPath`. -/
def store (st : LoopState) (p : Vec3) : LoopState :=
  if st.nsmoothPath < MAX_SMOOTH then
    { st with pathPoints := st.pathPoints ++ [p], nsmoothPath := st.nsmoothPath + 1 }
  else st

/-- The loop `while (npos < npolys && polyRef != steerPosRef)` of the off-mesh branch, with
`fuel` bounding the passes left; the result is `(prevRef, polyRef, npos)` at loop exit. -/
def advance (polys : PolyArray) (npolys : Int) (steerPosRef : PolyRef) :
    Nat → Nat → PolyRef → PolyRef → PolyRef × PolyRef × Nat
  | 0, npos, prevRef, polyRef => (prevRef, polyRef, npos)
  | fuel + 1, npos, prevRef, polyRef =>
    if (npos : Int) < npolys ∧ polyRef ≠ steerPosRef then
      advance polys npolys steerPosRef fuel (npos + 1) polyRef (polys npos)
    else (prevRef, polyRef, npos)

/-- The loop `for (int i = npos; i < npolys; ++i) polys[i - npos] = polys[i];`. -/
def shift (polys : PolyArray) (npolys : Int) (npos : Nat) : PolyArray :=
  fun j => if ((j + npos : Nat) : Int) < npolys then polys (j + npos) else polys j

/-- The off-mesh branch of the loop body, entered with the corridor after both fix-ups
and the cursor after re-heighting. -/
def offMesh (d : Detour) (st : LoopState) (steerPosRef : PolyRef) : LoopState :=
  match advance st.polys st.npolys steerPosRef st.npolys.toNat 0 0 (st.polys 0) with
  | (prevRef, polyRef, npos) =>
    let st1 : LoopState :=
      { st with polys := shift st.polys st.npolys npos, npolys := st.npolys - npos }
    match d.getOffMeshConnectionPolyEndPoints prevRef polyRef with
    | none => st1
    | some (startPos, endPos) =>
      let st2 : LoopState :=
        if st1.nsmoothPath < MAX_SMOOTH then
          let st3 : LoopState :=
            { st1 with pathPoints := st1.pathPoints ++ [startPos],
                       nsmoothPath := st1.nsmoothPath + 1 }
          if st3.nsmoothPath &&& 1 ≠ 0 then
            { st3 with pathPoints := st3.pathPoints ++ [startPos],
                       nsmoothPath := st3.nsmoothPath + 1 }
          else st3
        else st1
      let eh : ℚ := (d.getPolyHeight (st2.polys 0) endPos).getD 0
      { st2 with iterPos := { endPos with y := eh } }

/-- The "find movement delta" lines of the loop body: the point `moveTgt` handed to
`moveAlongSurface`, from the cursor, the steering target and its two flags. -/
def moveTarget (d : Detour) (iterPos steerPos : Vec3) (endOfPath offMeshConnection : Bool) :
    Vec3 :=
  let delta := dtVsub steerPos iterPos
  let len0 := d.dtMathSqrtf (dtVdot delta delta)
  let len : ℚ :=
    if (endOfPath || offMeshConnection) ∧ len0 < STEP_SIZE then 1 else STEP_SIZE / len0
  dtVmad iterPos delta len

/-- The "move" lines of the loop body: the surface walk toward `moveTgt`, the two corridor
fix-ups, and the re-heighting of the cursor on the polygon at the head of the corridor. -/
def move (d : Detour) (st : LoopState) (moveTgt : Vec3) : LoopState :=
  match d.moveAlongSurface (st.polys 0) st.iterPos moveTgt 16 with
  | (result, visited, nvisited) =>
    match d.fixupCorridor st.polys st.npolys MAX_POLYS visited nvisited with
    | (polys1, npolys1) =>
      match d.fixupShortcuts polys1 npolys1 with
      | (polys2, npolys2) =>
        let h : ℚ := (d.getPolyHeight (polys2 0) result).getD 0
        { st with iterPos := { result with y := h }, polys := polys2, npolys := npolys2 }

/-- The rest of the loop body after the move: the end-of-path branch (which breaks), the
off-mesh branch, and the final "store results". -/
def arrive (d : Detour) (targetPos steerPos : Vec3) (endOfPath offMeshConnection : Bool)
    (steerPosRef : PolyRef) (st : LoopState) : Step :=
  if endOfPath ∧ d.inRange st.iterPos steerPos SLOP 1 then
    Step.exit (store { st with iterPos := targetPos } targetPos)
  else if offMeshConnection ∧ d.inRange st.iterPos steerPos SLOP 1 then
    Step.next (store (offMesh d st steerPosRef) (offMesh d st steerPosRef).iterPos)
  else
    Step.next (store st st.iterPos)

/-- One pass through the body of `while (npolys && nsmoothPath < MAX_SMOOTH)`. -/
def iterate (d : Detour) (targetPos : Vec3) (st : LoopState) : Step :=
  match d.getSteerTarget st.iterPos targetPos SLOP st.polys st.npolys with
  | none => Step.exit st
  | some (steerPos, steerPosFlag, steerPosRef) =>
    let endOfPath : Bool := steerPosFlag &&& d.DT_STRAIGHTPATH_END ≠ 0
    let offMeshConnection : Bool := steerPosFlag &&& d.DT_STRAIGHTPATH_OFFMESH_CONNECTION ≠ 0
    arrive d targetPos steerPos endOfPath offMeshConnection steerPosRef
      (move d st (moveTarget d st.iterPos steerPos endOfPath offMeshConnection))

/-- The loop `while (npolys && nsmoothPath < MAX_SMOOTH)`, with `fuel` bounding the passes
left; `none` when the bound is used up with the loop condition still true. -/
def smoothLoop (d : Detour) (targetPos : Vec3) : Nat → LoopState → Option LoopState
  | fuel, st =>
    if st.npolys ≠ 0 ∧ st.nsmoothPath < MAX_SMOOTH then
      match fuel with
      | 0 => none
      | fuel + 1 =>
        match iterate d targetPos st with
        | Step.exit st1 => some st1
        | Step.next st1 => smoothLoop d targetPos fuel st1
    else some st

/-- Method `NavMesh::findPath` on an object whose query pointers are set; the result is
the caller's vector `pathPoints` after the call. -/
def findPath (d : Detour) (start end_ : Vec3) (pathPoints : List Vec3) : Option (List Vec3) :=
  let ext : Vec3 := ⟨2, 4, 2⟩
  let startRef := d.findNearestPoly start ext
  let endRef := d.findNearestPoly end_ ext
  match d.findPath startRef endRef start end_ MAX_POLYS with
  | (polys, npolys) =>
    if npolys ≠ 0 then
      let iterPos := d.closestPointOnPoly startRef start
      let targetPos := d.closestPointOnPoly (polys (npolys - 1).toNat) end_
      let st : LoopState :=
        { iterPos := iterPos, polys := polys, npolys := npolys, nsmoothPath := 1,
          pathPoints := pathPoints ++ [iterPos] }
      (smoothLoop d targetPos MAX_SMOOTH st).map LoopState.pathPoints
    else some pathPoints

/-- A call of one of the four registration methods with a valid (non-null) handle. -/
inductive Op where
  | addAgent (agent : Nat)
  | removeAgent (agent : Nat)
  | addObstacle (obstacle : Nat)
  | removeObstacle (obstacle : Nat)
  deriving DecidableEq, Repr

/-- The method call an `Op` stands for. -/
def step (s : NavMesh) : Op → Option (NavMesh × List Call)
  | Op.addAgent a => addNavMeshAgent s (some a)
  | Op.removeAgent a => removeNavMeshAgent s (some a)
  | Op.addObstacle o => addNavMeshObstacle s (some o)
  | Op.removeObstacle o => removeNavMeshObstacle s (some o)

/-- A sequence of registration calls, one after the other, with all the calls they made. -/
def run : NavMesh → List Op → Option (NavMesh × List Call)
  | s, [] => some (s, [])
  | s, op :: ops =>
    match step s op with
    | none => none
    | some (s1, c1) =>
      match run s1 ops with
      | none => none
      | some (s2, c2) => some (s2, c1 ++ c2)

/-- Number of occupied (non-null) slots of a slot array. -/
def occupied (slots : List Ptr) : Nat := slots.countP Option.isSome

/-- Number of slots of a slot array that hold the entity `e`. -/
def slotsOf (slots : List Ptr) (e : Nat) : Nat := slots.count (some e)

/-- Modelled from the spec: `Ref::retain` and `Ref::release` (CCRef.cpp is not among the
sources). Adding an agent "increments a reference count on the entity" and removing it
"releases the shared-ownership reference"; this is the count of agent `a` after `calls`,
from the count `rc` before them. -/
def agentRefCount (a : Nat) : Int → List Call → Int
  | rc, [] => rc
  | rc, Call.agentRetain b :: rest => agentRefCount a (if b = a then rc + 1 else rc) rest
  | rc, Call.agentRelease b :: rest => agentRefCount a (if b = a then rc - 1 else rc) rest
  | rc, _ :: rest => agentRefCount a rc rest

/-- The discipline under which slots stay unique: every `addNavMeshAgent` of the sequence
is called with an agent that no slot holds at that moment. -/
def addsAbsentOnly : NavMesh → List Op → Bool
  | _, [] => true
  | s, op :: ops =>
    (match op with
      | Op.addAgent a => decide (some a ∉ s.agentList)
      | _ => true) &&
    (match step s op with
      | none => true
      | some (s1, _) => addsAbsentOnly s1 ops)

end NavMesh

/-- The payloads handed to `dtTileCache::addTile`, in call order. -/
def addTilePayloads (calls : List ReadCall) : List (List Nat) :=
  calls.filterMap fun c =>
    match c with
    | ReadCall.addTile data _ => some data
    | _ => none

/-- The `fread` calls among `calls`, in call order. -/
def freads (calls : List ReadCall) : List ReadCall :=
  calls.filter fun c =>
    match c with
    | ReadCall.freadHeader => true
    | ReadCall.freadTileHeader => true
    | ReadCall.freadData _ => true
    | _ => false

/-- A record that ends the tile stream: `tileRef = 0` or `dataSize = 0`. -/
abbrev isTerminator (r : TileRecord) : Prop := r.header.tileRef = 0 ∨ r.header.dataSize = 0

/-- In the words of the spec, not of the code: the longest run of leading records, among
the first `n` of the stream, in which every record has `tileRef != 0` and
`dataSize != 0`. -/
def leadingTiles : Nat → List TileRecord → List TileRecord
  | 0, _ => []
  | _ + 1, [] => []
  | n + 1, r :: rest => if isTerminator r then [] else r :: leadingTiles n rest

/-- In the words of the spec, not of the code: the reads of a tile loop that takes the
records of `leading` and then, when `stopped`, the header of one more record. -/
def expectedTileFreads (leading : List TileRecord) (stopped : Bool) : List ReadCall :=
  leading.flatMap (fun r => [ReadCall.freadTileHeader, ReadCall.freadData r.header.dataSize])
    ++ (if stopped then [ReadCall.freadTileHeader] else [])

/-- The loop state `st` had the caller's vector held `pre` in front of what it holds. -/
def prepend (pre : List Vec3) (st : LoopState) : LoopState :=
  { st with pathPoints := pre ++ st.pathPoints }

/-- The same kind of `Step` with its state changed by `f`. -/
def Step.mapState (f : LoopState → LoopState) : Step → Step
  | Step.exit st => Step.exit (f st)
  | Step.next st => Step.next (f st)

/-- Modelled from the spec: `Ref::retain` and `Ref::release` (CCRef.cpp is not among the
sources), as `NavMesh.agentRefCount` but for obstacles: adding an obstacle "increments a
reference count on the entity" and removing it "releases the shared-ownership
reference". This is the count of obstacle `o` after `calls`, from the count `rc` before. -/
def obstacleRefCount (o : Nat) : Int → List Call → Int
  | rc, [] => rc
  | rc, Call.obstacleRetain b :: rest => obstacleRefCount o (if b = o then rc + 1 else rc) rest
  | rc, Call.obstacleRelease b :: rest => obstacleRefCount o (if b = o then rc - 1 else rc) rest
  | rc, _ :: rest => obstacleRefCount o rc rest

/-- Three floats over an exact ordered field `K`: the same `float[3]` as `Vec3`, for
positions whose distances have no rational square root. -/
structure Vec3Over (K : Type) where
  x : K
  y : K
  z : K

/-- The rational vector as a vector over ℚ. -/
def Vec3.toOver (v : Vec3) : Vec3Over ℚ := ⟨v.x, v.y, v.z⟩

/-- The vector over ℚ as a rational vector. -/
def Vec3.ofOver (v : Vec3Over ℚ) : Vec3 := ⟨v.x, v.y, v.z⟩

/-- Modelled from the spec: Detour helper `dtVsub` over the field `K`, as `dtVsub`. -/
def dtVsubOver {K : Type} [LinearOrderedField K] (v1 v2 : Vec3Over K) : Vec3Over K :=
  ⟨v1.x - v2.x, v1.y - v2.y, v1.z - v2.z⟩

/-- Modelled from the spec: Detour helper `dtVdot` over the field `K`, as `dtVdot`. -/
def dtVdotOver {K : Type} [LinearOrderedField K] (v1 v2 : Vec3Over K) : K :=
  v1.x * v2.x + v1.y * v2.y + v1.z * v2.z

/-- Modelled from the spec: Detour helper `dtVmad` over the field `K`, as `dtVmad`. -/
def dtVmadOver {K : Type} [LinearOrderedField K] (v1 v2 : Vec3Over K) (s : K) : Vec3Over K :=
  ⟨v1.x + v2.x * s, v1.y + v2.y * s, v1.z + v2.z * s⟩

/-- The "find movement delta" lines of the loop body of `findPath`, as `NavMesh.moveTarget`,
with the floats taken in any ordered field `K` and `dtMathSqrtf` given; `STEP_SIZE` is
`1 / 2`. Over ℚ this is `NavMesh.moveTarget`. -/
def moveTargetOver {K : Type} [LinearOrderedField K] (dtMathSqrtf : K → K)
    (iterPos steerPos : Vec3Over K) (endOfPath offMeshConnection : Bool) : Vec3Over K :=
  let delta := dtVsubOver steerPos iterPos
  let len0 := dtMathSqrtf (dtVdotOver delta delta)
  let len : K :=
    if (endOfPath || offMeshConnection) ∧ len0 < 1 / 2 then 1 else (1 / 2) / len0
  dtVmadOver iterPos delta len

/-- In the words of the spec, not of the code: the fraction `t` of the way to the steering
target that one step covers, `1` when the target is the end of the path or an off-mesh
connection and the distance `len` is below the step size, and `0.5 / len` otherwise. -/
def stepFraction {K : Type} [LinearOrderedField K] (endOrOffMesh : Bool) (len : K) : K :=
  if endOrOffMesh = true ∧ len < 1 / 2 then 1 else (1 / 2) / len

/-- In the words of the spec, not of the code: the length of one step, `min(len, 0.5)`
toward the end of the path or an off-mesh connection and `0.5` toward an interior
target. -/
def stepLength {K : Type} [LinearOrderedField K] (endOrOffMesh : Bool) (len : K) : K :=
  if endOrOffMesh = true then min len (1 / 2) else 1 / 2

/-! ## `Particle3DBoxCollider`: direction after a collision

A shallow embedding of `Particle3DBoxCollider::calculateDirectionAfterCollision` and
`isSmallestValue` of `CCParticle3DBoxCollider.cpp`, with exact arithmetic. -/

/-- The collision types of `Particle3DBaseCollider` (its header is not among the
sources): the two the `switch` handles, and `CT_NONE` for any other value. -/
inductive CollisionType where
  | CT_NONE
  | CT_BOUNCE
  | CT_FLOW
  deriving DecidableEq, Repr

/-- The members of `Particle3D` that the collider reads or writes. -/
structure Particle3D where
  position : Vec3
  direction : Vec3
  deriving DecidableEq, Repr

/-- The members of `Particle3DBoxCollider` (some inherited) that the two methods read. -/
structure Particle3DBoxCollider where
  xmin : ℚ
  xmax : ℚ
  ymin : ℚ
  ymax : ℚ
  zmin : ℚ
  zmax : ℚ
  bouncyness : ℚ
  friction : ℚ
  collisionType : CollisionType
  deriving DecidableEq, Repr

/-- The operator `Vec3::operator*=(float)` (math/Vec3 is not among the sources): every
component is multiplied by `s`. -/
def Vec3.scale (v : Vec3) (s : ℚ) : Vec3 := ⟨v.x * s, v.y * s, v.z * s⟩

namespace Particle3DBoxCollider

/-- Method `Particle3DBoxCollider::isSmallestValue`. -/
def isSmallestValue (c : Particle3DBoxCollider) (value : ℚ) (particlePosition : Vec3) : Bool :=
  let value1 := particlePosition.x - c.xmin
  let value2 := c.xmax - particlePosition.x
  let value3 := particlePosition.y - c.ymin
  let value4 := c.ymax - particlePosition.y
  let value5 := particlePosition.z - c.zmin
  let value6 := c.zmax - particlePosition.z
  decide (value ≤ value1) && decide (value ≤ value2) && decide (value ≤ value3) &&
    decide (value ≤ value4) && decide (value ≤ value5) && decide (value ≤ value6)

/-- Method `Particle3DBoxCollider::calculateDirectionAfterCollision`: the particle after
the call. -/
def calculateDirectionAfterCollision (c : Particle3DBoxCollider) (particle : Particle3D) :
    Particle3D :=
  let pos := particle.position
  let dir := particle.direction
  match c.collisionType with
  | CollisionType.CT_BOUNCE =>
    let dir1 : Vec3 :=
      if isSmallestValue c (pos.x - c.xmin) pos then { dir with x := dir.x * -1 }
      else if isSmallestValue c (c.xmax - pos.x) pos then { dir with x := dir.x * -1 }
      else if isSmallestValue c (pos.y - c.ymin) pos then { dir with y := dir.y * -1 }
      else if isSmallestValue c (c.ymax - pos.y) pos then { dir with y := dir.y * -1 }
      else if isSmallestValue c (pos.z - c.zmin) pos then { dir with z := dir.z * -1 }
      else if isSmallestValue c (c.zmax - pos.z) pos then { dir with z := dir.z * -1 }
      else dir
    { particle with direction := dir1.scale c.bouncyness }
  | CollisionType.CT_FLOW =>
    let dir1 : Vec3 :=
      if isSmallestValue c (pos.x - c.xmin) pos then { dir with x := 0 }
      else if isSmallestValue c (c.xmax - pos.x) pos then { dir with x := 0 }
      else if isSmallestValue c (pos.y - c.ymin) pos then { dir with y := 0 }
      else if isSmallestValue c (c.ymax - pos.y) pos then { dir with y := 0 }
      else if isSmallestValue c (pos.z - c.zmin) pos then { dir with z := 0 }
      else if isSmallestValue c (c.zmax - pos.z) pos then { dir with z := 0 }
      else dir
    { particle with direction := dir1.scale (-c.friction) }
  | CollisionType.CT_NONE => particle

/-- In the words of the claim, not of the code: the signed distances of the particle to
the six faces, in the order x-min, x-max, y-min, y-max, z-min, z-max. -/
def faceDistances (c : Particle3DBoxCollider) (pos : Vec3) : List ℚ :=
  [pos.x - c.xmin, c.xmax - pos.x, pos.y - c.ymin, c.ymax - pos.y,
   pos.z - c.zmin, c.zmax - pos.z]

/-- In the words of the claim, not of the code: the first face, in that order, whose
signed distance is the minimum of the six (it is at most each of them); `6` if there
were none. -/
def nearestFace (c : Particle3DBoxCollider) (pos : Vec3) : Nat :=
  (faceDistances c pos).findIdx (fun v => (faceDistances c pos).all (fun w => decide (v ≤ w)))

/-- In the words of the claim, not of the code: the direction with the component of axis
`axis` (0 is x, 1 is y, 2 is z) changed by `f` and the other components kept. -/
def onAxis (f : ℚ → ℚ) (axis : Nat) (v : Vec3) : Vec3 :=
  match axis with
  | 0 => { v with x := f v.x }
  | 1 => { v with y := f v.y }
  | 2 => { v with z := f v.z }
  | _ => v

end Particle3DBoxCollider

/-! ## Concrete inputs -/

namespace Examples

/-- A well-formed tile-set file with no tiles and room for two obstacles. -/
def emptyFile : File :=
  { header := { magic := TILECACHESET_MAGIC, version := 1, numTiles := 0,
                walkableRadius := 1 / 2, maxObstacles := 2 },
    tiles := [] }

/-- Collaborators that all succeed, on `emptyFile`. -/
def goodEnv : Env :=
  { newNavMesh := true, fopen := some emptyFile,
    dtAllocNavMesh := some 1, navMeshInit := true,
    dtAllocTileCache := some 2, tileCacheInit := true,
    dtAlloc := fun _ _ => true, addTile := fun i _ _ => i + 1,
    dtAllocCrowd := some 3, crowdInit := true,
    dtAllocNavMeshQuery := some 4, navMeshQueryInit := true }

/-- The object `create goodEnv` returns. -/
def loaded : NavMesh :=
  { navMesh := some 1, navMeshQuery := some 4, crowed := some 3, tileCache := some 2,
    allocator := true, compressor := true, meshProcess := true,
    agentList := List.replicate MAX_AGENTS none,
    obstacleList := List.replicate 2 none }

/-- A manager whose 128 agent slots hold the agents `0` to `127`. -/
def full : NavMesh :=
  { loaded with agentList := (List.range MAX_AGENTS).map some }

/-- A manager holding agent `7` in slot 1 and agent `9` in slot 3 of five slots, and
obstacle `4` in the second of two obstacle slots. -/
def sparse : NavMesh :=
  { loaded with agentList := [none, some 7, none, some 9, none],
                obstacleList := [none, some 4] }

/-- A tile record with non-zero reference and size. -/
def tileA : TileRecord := { header := { tileRef := 11, dataSize := 3 }, data := [1, 2, 3] }

/-- A second tile record with non-zero reference and size. -/
def tileB : TileRecord := { header := { tileRef := 12, dataSize := 2 }, data := [4, 5] }

/-- A record whose `dataSize` is zero. -/
def tileEnd : TileRecord := { header := { tileRef := 13, dataSize := 0 }, data := [] }

/-- A header with the right magic and version that announces `n` tiles. -/
def headerOf (n : Int) : TileCacheSetHeader :=
  { magic := TILECACHESET_MAGIC, version := 1, numTiles := n,
    walkableRadius := 1 / 2, maxObstacles := 2 }

/-- Four records announced; the third one ends the stream. -/
def stoppedFile : File := { header := headerOf 4, tiles := [tileA, tileB, tileEnd, tileA] }

/-- Collaborators that all succeed, on `stoppedFile`. -/
def stoppedEnv : Env := { goodEnv with fopen := some stoppedFile }

/-- One valid record announced and present, but its payload buffer cannot be allocated. -/
def allocFailEnv : Env :=
  { goodEnv with fopen := some { header := headerOf 1, tiles := [tileA] },
                 dtAlloc := fun _ _ => false }

/-- Two records announced, one present, no terminator: a truncated file. -/
def truncatedEnv : Env :=
  { goodEnv with fopen := some { header := headerOf 2, tiles := [tileA] } }

/-- The crowd cannot be allocated. -/
def noCrowdEnv : Env := { goodEnv with dtAllocCrowd := none }

/-- The query object cannot be allocated. -/
def noQueryEnv : Env := { goodEnv with dtAllocNavMeshQuery := none }

/-- Both the crowd and the query object are allocated, and both `init` calls fail. -/
def initFailEnv : Env := { goodEnv with crowdInit := false, navMeshQueryInit := false }

/-- A file whose magic is off by one. -/
def badMagicEnv : Env :=
  { goodEnv with fopen := some { emptyFile with
      header := { emptyFile.header with magic := TILECACHESET_MAGIC + 1 } } }

/-- A file with the right magic and version 2. -/
def badVersionEnv : Env :=
  { goodEnv with fopen := some { emptyFile with
      header := { emptyFile.header with version := 2 } } }

/-- A mesh on which the corridor search finds no polygon. -/
def noCorridor : Detour :=
  { DT_STRAIGHTPATH_END := 2, DT_STRAIGHTPATH_OFFMESH_CONNECTION := 4,
    findNearestPoly := fun _ _ => 0,
    findPath := fun _ _ _ _ _ => (fun _ => 0, 0),
    closestPointOnPoly := fun _ p => p,
    getSteerTarget := fun _ t _ _ _ => some (t, 2, 0),
    dtMathSqrtf := fun x => x,
    moveAlongSurface := fun _ _ t _ => (t, [], 0),
    fixupCorridor := fun polys n _ _ _ => (polys, n),
    fixupShortcuts := fun polys n => (polys, n),
    getPolyHeight := fun _ p => some p.y,
    inRange := fun _ _ _ _ => true,
    getOffMeshConnectionPolyEndPoints := fun _ _ => none }

/-- A flat mesh of one polygon, number 1: every point lies on it, the steering target is
always the end of the path, the surface walk reaches its target, and `inRange` is Detour's
test `dx*dx + dz*dz < r*r && |dy| < h`. The square root is exact on `0`, `1/4` and `1`. -/
def flatMesh : Detour :=
  { DT_STRAIGHTPATH_END := 2, DT_STRAIGHTPATH_OFFMESH_CONNECTION := 4,
    findNearestPoly := fun _ _ => 1,
    findPath := fun _ _ _ _ _ => (fun _ => 1, 1),
    closestPointOnPoly := fun _ p => p,
    getSteerTarget := fun _ t _ _ _ => some (t, 2, 1),
    dtMathSqrtf := fun x => if x = 1 / 4 then 1 / 2 else x,
    moveAlongSurface := fun _ _ t _ => (t, [1], 1),
    fixupCorridor := fun polys n _ _ _ => (polys, n),
    fixupShortcuts := fun polys n => (polys, n),
    getPolyHeight := fun _ p => some p.y,
    inRange := fun v1 v2 r h =>
      decide ((v2.x - v1.x) * (v2.x - v1.x) + (v2.z - v1.z) * (v2.z - v1.z) < r * r)
        && decide (|v2.y - v1.y| < h),
    getOffMeshConnectionPolyEndPoints := fun _ _ => none }

/-- The origin. -/
def origin : Vec3 := ⟨0, 0, 0⟩

/-- The point one unit from the origin along x. -/
def unitX : Vec3 := ⟨1, 0, 0⟩

/-- A point that lies on no path between `origin` and `unitX`. -/
def stale : Vec3 := ⟨7, 7, 7⟩

/-- The entry point of the off-mesh connection of `jumpMesh`. -/
def entry : Vec3 := ⟨1 / 4, 0, 0⟩

/-- The exit point of the off-mesh connection of `jumpMesh`, three units above the floor. -/
def exitRaw : Vec3 := ⟨9, 3, 0⟩

/-- The exit point of the off-mesh connection of `jumpMesh`, on the floor of polygon 3. -/
def exitFloor : Vec3 := ⟨9, 0, 0⟩

/-- The end of the paths over `jumpMesh`. -/
def far : Vec3 := ⟨10, 0, 0⟩

/-- A mesh with the corridor `1, 2, 3`, in which polygon 2 is an off-mesh connection from
`entry` to `exitRaw`: while polygon 1 heads the corridor the steering target is `entry`,
flagged as an off-mesh connection of polygon 2, and afterwards it is the end of the
path. The floor of polygon 3 is at height 0. The square root is exact on `0`, `1/16`,
`1/4` and `1`. -/
def jumpMesh : Detour :=
  { flatMesh with
    findPath := fun _ _ _ _ _ => (fun i => i + 1, 3),
    getSteerTarget := fun _ t _ polys _ =>
      if polys 0 = 1 then some (entry, 4, 2) else some (t, 2, polys 0),
    dtMathSqrtf := fun x => if x = 1 / 16 then 1 / 4 else if x = 1 / 4 then 1 / 2 else x,
    getPolyHeight := fun ref p => if ref = 3 then some 0 else some p.y,
    getOffMeshConnectionPolyEndPoints := fun prev poly =>
      if prev = 1 ∧ poly = 2 then some (entry, exitRaw) else none }

/-- The mesh `flatMesh` with every floor height reported as `1/2`. -/
def hillMesh : Detour := { flatMesh with getPolyHeight := fun _ _ => some (1 / 2) }

/-- The loop state of `findPath jumpMesh origin far` on entry of the smoothing loop. -/
def jumpStart : LoopState :=
  { iterPos := origin, polys := fun i => i + 1, npolys := 3, nsmoothPath := 1,
    pathPoints := [origin] }

/-- The loop state of `findPath hillMesh origin origin` on entry of the smoothing loop. -/
def hillStart : LoopState :=
  { iterPos := origin, polys := fun _ => 1, npolys := 1, nsmoothPath := 1,
    pathPoints := [origin] }

/-- The loop state of `findPath flatMesh origin unitX` on entry of the smoothing loop. -/
def flatStart : LoopState :=
  { iterPos := origin, polys := fun _ => 1, npolys := 1, nsmoothPath := 1,
    pathPoints := [origin] }

/-- A start point one unit before `entry`. -/
def west : Vec3 := ⟨-(3 / 4), 0, 0⟩

/-- The point half a unit after `west`, where the first step from `west` ends. -/
def westStep : Vec3 := ⟨-(1 / 4), 0, 0⟩

/-- The loop state of `findPath jumpMesh west far` on entry of the smoothing loop. -/
def jumpWestStart : LoopState :=
  { iterPos := west, polys := fun i => i + 1, npolys := 3, nsmoothPath := 1,
    pathPoints := [west] }

/-- The loop state of `findPath jumpMesh west far` after the first pass of the loop. -/
def jumpWestSecond : LoopState :=
  { iterPos := westStep, polys := fun i => i + 1, npolys := 3, nsmoothPath := 2,
    pathPoints := [west, westStep] }

/-- The mesh `flatMesh` with every steering target reported as an interior point (no
flag set). -/
def interiorMesh : Detour :=
  { flatMesh with getSteerTarget := fun _ t _ _ _ => some (t, 0, 1) }

/-- The point half a unit above the origin. -/
def up : Vec3 := ⟨0, 1 / 2, 0⟩

/-- A manager with the crowd set, agents `1` and `2` in its two agent slots and obstacle
`4` in its only obstacle slot. -/
def busy : NavMesh :=
  { loaded with agentList := [some 1, some 2], obstacleList := [some 4] }

/-- A box from `(0, 0, 0)` to `(10, 10, 10)` that bounces with bouncyness `1/2`. -/
def bounceBox : Particle3DBoxCollider :=
  { xmin := 0, xmax := 10, ymin := 0, ymax := 10, zmin := 0, zmax := 10,
    bouncyness := 1 / 2, friction := 1 / 4, collisionType := CollisionType.CT_BOUNCE }

/-- The box `bounceBox` with collision type `CT_FLOW`. -/
def flowBox : Particle3DBoxCollider :=
  { bounceBox with collisionType := CollisionType.CT_FLOW }

/-- A particle nearest to the face y-max of `bounceBox`, at equal distance from x-max
and z-min further away. -/
def nearTop : Particle3D := { position := ⟨7, 9, 3⟩, direction := ⟨1, 2, 4⟩ }

end Examples

/-! ## Facts about `std::find` and slot arrays -/

theorem find_eq_none_iff (xs : List Ptr) (v : Ptr) : find xs v = none ↔ v ∉ xs := by
  induction xs with
  | nil => simp [find]
  | cons x rest ih =>
    by_cases h : x = v
    · simp [find, h]
    · have h2 : ¬ v = x := fun e => h e.symm
      simp [find, h, h2, ih]

theorem find_some_getElem (xs : List Ptr) (v : Ptr) (i : Nat) (h : find xs v = some i) :
    xs[i]? = some v := by
  induction xs generalizing i with
  | nil => simp [find] at h
  | cons x rest ih =>
    by_cases hx : x = v
    · simp [find, hx] at h
      subst h
      simp [hx]
    · simp [find, hx] at h
      obtain ⟨j, hj, rfl⟩ := h
      simpa using ih j hj

theorem find_some_first (xs : List Ptr) (v : Ptr) (i : Nat) (h : find xs v = some i) :
    ∀ j, j < i → xs[j]? ≠ some v := by
  induction xs generalizing i with
  | nil => simp [find] at h
  | cons x rest ih =>
    by_cases hx : x = v
    · simp [find, hx] at h
      subst h
      intro j hj
      omega
    · simp [find, hx] at h
      obtain ⟨k, hk, rfl⟩ := h
      intro j hj
      cases j with
      | zero => simpa using hx
      | succ j => simpa using ih k hk j (by omega)

theorem count_set_find (xs : List Ptr) (v w u : Ptr) (i : Nat) (h : find xs v = some i) :
    (xs.set i w).count u + (if v = u then 1 else 0)
      = xs.count u + (if w = u then 1 else 0) := by
  induction xs generalizing i with
  | nil => simp [find] at h
  | cons x rest ih =>
    by_cases hx : x = v
    · simp [find, hx] at h
      subst h
      subst hx
      simp only [List.set_cons_zero, List.count_cons, beq_iff_eq]
      omega
    · simp [find, hx] at h
      obtain ⟨k, hk, rfl⟩ := h
      have := ih k hk
      simp only [List.set_cons_succ, List.count_cons, beq_iff_eq]
      omega

theorem occupied_set_find (xs : List Ptr) (v w : Ptr) (i : Nat) (h : find xs v = some i) :
    NavMesh.occupied (xs.set i w) + (if v.isSome then 1 else 0)
      = NavMesh.occupied xs + (if w.isSome then 1 else 0) := by
  induction xs generalizing i with
  | nil => simp [find] at h
  | cons x rest ih =>
    by_cases hx : x = v
    · simp [find, hx] at h
      subst h
      subst hx
      simp only [NavMesh.occupied, List.set_cons_zero, List.countP_cons]
      omega
    · simp [find, hx] at h
      obtain ⟨k, hk, rfl⟩ := h
      have := ih k hk
      simp only [NavMesh.occupied, List.set_cons_succ, List.countP_cons] at this ⊢
      omega

namespace NavMesh

open Examples

theorem addNavMeshAgent_of_find (s : NavMesh) (a i : Nat) (h : find s.agentList none = some i) :
    addNavMeshAgent s (some a) =
      some ({ s with agentList := s.agentList.set i (some a) },
            [Call.agentAddTo a s.crowed, Call.agentSetNavMeshQuery a s.navMeshQuery,
             Call.agentRetain a]) := by
  simp [addNavMeshAgent, h]

theorem addNavMeshAgent_of_full (s : NavMesh) (agent : Ptr) (h : none ∉ s.agentList) :
    addNavMeshAgent s agent = some (s, []) := by
  have hf : find s.agentList none = none := (find_eq_none_iff _ _).2 h
  simp [addNavMeshAgent, hf]

theorem removeNavMeshAgent_of_find (s : NavMesh) (a i : Nat)
    (h : find s.agentList (some a) = some i) :
    removeNavMeshAgent s (some a) =
      some ({ s with agentList := s.agentList.set i none },
            [Call.agentRemoveFrom a s.crowed, Call.agentSetNavMeshQuery a none,
             Call.agentRelease a]) := by
  simp [removeNavMeshAgent, h]

theorem removeNavMeshAgent_of_absent (s : NavMesh) (agent : Ptr) (h : agent ∉ s.agentList) :
    removeNavMeshAgent s agent = some (s, []) := by
  have hf : find s.agentList agent = none := (find_eq_none_iff _ _).2 h
  simp [removeNavMeshAgent, hf]

theorem removeNavMeshObstacle_of_absent (s : NavMesh) (obstacle : Ptr)
    (h : obstacle ∉ s.obstacleList) :
    removeNavMeshObstacle s obstacle = some (s, []) := by
  have hf : find s.obstacleList obstacle = none := (find_eq_none_iff _ _).2 h
  simp [removeNavMeshObstacle, hf]

/-- A registration call with a valid handle always returns, and keeps both array lengths. -/
theorem step_total (s : NavMesh) (op : Op) :
    ∃ s1 c, step s op = some (s1, c) ∧ s1.agentList.length = s.agentList.length ∧
      s1.obstacleList.length = s.obstacleList.length := by
  cases op with
  | addAgent a =>
    cases h : find s.agentList none with
    | none => exact ⟨s, [], by simp [step, addNavMeshAgent, h]⟩
    | some i =>
      simp only [step, addNavMeshAgent, h]
      exact ⟨_, _, rfl, by simp, rfl⟩
  | removeAgent a =>
    cases h : find s.agentList (some a) with
    | none => exact ⟨s, [], by simp [step, removeNavMeshAgent, h]⟩
    | some i =>
      simp only [step, removeNavMeshAgent, h]
      exact ⟨_, _, rfl, by simp, rfl⟩
  | addObstacle o =>
    cases h : find s.obstacleList none with
    | none => exact ⟨s, [], by simp [step, addNavMeshObstacle, h]⟩
    | some i =>
      simp only [step, addNavMeshObstacle, h]
      exact ⟨_, _, rfl, rfl, by simp⟩
  | removeObstacle o =>
    cases h : find s.obstacleList (some o) with
    | none => exact ⟨s, [], by simp [step, removeNavMeshObstacle, h]⟩
    | some i =>
      simp only [step, removeNavMeshObstacle, h]
      exact ⟨_, _, rfl, rfl, by simp⟩

/-- A sequence of registration calls with valid handles always returns, and keeps the
length of the agent slot array. -/
theorem run_total (s : NavMesh) (ops : List Op) :
    ∃ s1 c, run s ops = some (s1, c) ∧ s1.agentList.length = s.agentList.length := by
  induction ops generalizing s with
  | nil => exact ⟨s, [], rfl, rfl⟩
  | cons op ops ih =>
    obtain ⟨s1, c1, h1, hl, _⟩ := step_total s op
    obtain ⟨s2, c2, h2, hl2⟩ := ih s1
    exact ⟨s2, c1 ++ c2, by simp [run, h1, h2], by omega⟩

/-- What `read` leaves in the slot arrays when it returns `true`. -/
theorem read_true_slots (this : NavMesh) (env : Env) (s : NavMesh) (calls : List ReadCall)
    (h : read this env = some (true, s, calls)) :
    s.agentList = List.replicate MAX_AGENTS none ∧
      ∃ k, s.obstacleList = List.replicate k none := by
  unfold read at h
  split at h
  · simp at h
  · rename_i file hf
    split_ifs at h <;> try (simp at h)
    split at h
    · simp at h
    · rename_i tileCalls ht
      unfold readTail at h
      split at h
      · simp at h
      · split at h
        · simp at h
        · simp only [Option.some.injEq, Prod.mk.injEq, true_and] at h
          obtain ⟨hs, _⟩ := h
          subst hs
          exact ⟨rfl, _, rfl⟩

/-- The object `create` returns has all-empty slot arrays, 128 agent slots among them. -/
theorem create_slots (env : Env) (s : NavMesh) (h : create env = some (some s)) :
    s.agentList = List.replicate MAX_AGENTS none ∧
      ∃ k, s.obstacleList = List.replicate k none := by
  unfold create initWithFilePath at h
  split_ifs at h
  · simp at h
  · cases hr : read ctor env with
    | none => simp [hr] at h
    | some r =>
      obtain ⟨b, s1, calls⟩ := r
      rw [hr] at h
      cases b with
      | false => simp at h
      | true =>
        simp only [Option.some.injEq] at h
        subst h
        exact read_true_slots _ _ _ _ hr

theorem forEach_of_empty_slot (method : Nat → ℚ → Call) (dt : ℚ) (slots : List Ptr)
    (h : none ∈ slots) : forEach method dt slots = none := by
  induction slots with
  | nil => simp at h
  | cons x rest ih =>
    cases x with
    | none => rfl
    | some e =>
      have hr : none ∈ rest := by simpa using h
      simp [forEach, ih hr]

/-- Every state with an empty agent or obstacle slot makes `update` dereference a null
pointer. -/
theorem update_of_empty_slot (s : NavMesh) (dt : ℚ)
    (h : none ∈ s.agentList ∨ none ∈ s.obstacleList) : update s dt = none := by
  rcases h with h | h
  · simp [update, forEach_of_empty_slot _ dt _ h]
  · unfold update
    rw [forEach_of_empty_slot Call.obstaclePreUpdate dt _ h]
    cases forEach Call.agentPreUpdate dt s.agentList <;> rfl

/-- One registration call keeps slots unique when it does not add an agent already held. -/
theorem step_unique (s : NavMesh) (op : Op) (hinv : ∀ a, slotsOf s.agentList a ≤ 1)
    (hop : ∀ a, op = Op.addAgent a → some a ∉ s.agentList) :
    ∃ s1 c, step s op = some (s1, c) ∧ ∀ a, slotsOf s1.agentList a ≤ 1 := by
  cases op with
  | addAgent a =>
    have habs : some a ∉ s.agentList := hop a rfl
    cases h : find s.agentList none with
    | none => exact ⟨s, [], by simp [step, addNavMeshAgent, h], hinv⟩
    | some i =>
      simp only [step, addNavMeshAgent, h]
      refine ⟨_, _, rfl, ?_⟩
      intro b
      have hc := count_set_find s.agentList none (some a) (some b) i h
      have hb := hinv b
      have h0 : s.agentList.count (some a) = 0 := List.count_eq_zero.2 habs
      simp only [slotsOf] at hb ⊢
      by_cases hab : a = b
      · subst hab
        simp at hc
        omega
      · simp [hab] at hc
        omega
  | removeAgent a =>
    cases h : find s.agentList (some a) with
    | none => exact ⟨s, [], by simp [step, removeNavMeshAgent, h], hinv⟩
    | some i =>
      simp only [step, removeNavMeshAgent, h]
      refine ⟨_, _, rfl, ?_⟩
      intro b
      have hc := count_set_find s.agentList (some a) none (some b) i h
      have hb := hinv b
      simp only [slotsOf] at hb ⊢
      simp at hc
      omega
  | addObstacle o =>
    cases h : find s.obstacleList none with
    | none => exact ⟨s, [], by simp [step, addNavMeshObstacle, h], hinv⟩
    | some i =>
      simp only [step, addNavMeshObstacle, h]
      exact ⟨_, _, rfl, hinv⟩
  | removeObstacle o =>
    cases h : find s.obstacleList (some o) with
    | none => exact ⟨s, [], by simp [step, removeNavMeshObstacle, h], hinv⟩
    | some i =>
      simp only [step, removeNavMeshObstacle, h]
      exact ⟨_, _, rfl, hinv⟩

/-- A disciplined sequence of registration calls keeps slots unique. -/
theorem run_unique (s : NavMesh) (ops : List Op) (hinv : ∀ a, slotsOf s.agentList a ≤ 1)
    (hd : addsAbsentOnly s ops = true) :
    ∃ s1 c, run s ops = some (s1, c) ∧ ∀ a, slotsOf s1.agentList a ≤ 1 := by
  induction ops generalizing s with
  | nil => exact ⟨s, [], rfl, hinv⟩
  | cons op ops ih =>
    simp only [addsAbsentOnly, Bool.and_eq_true] at hd
    obtain ⟨hd1, hd2⟩ := hd
    have hop : ∀ a, op = Op.addAgent a → some a ∉ s.agentList := by
      intro a ha
      subst ha
      simpa using hd1
    obtain ⟨s1, c1, h1, hinv1⟩ := step_unique s op hinv hop
    rw [h1] at hd2
    obtain ⟨s2, c2, h2, hinv2⟩ := ih s1 hinv1 hd2
    exact ⟨s2, c1 ++ c2, by simp [run, h1, h2], hinv2⟩

/-! ## The claims -/

/-- C1 (fails on the code): on the object a successful load returns, whose agent slots are
all empty, `update` does not complete: its first loop calls `preUpdate` through the null
pointer of slot 0. -/
theorem update_after_load_dereferences_null :
    create goodEnv = some (some loaded) ∧ find loaded.agentList none = some 0 ∧
      update loaded (1 / 60) = none := by
  decide

/-- C2 as stated is false: after a load, two calls of `addNavMeshAgent` with the same agent
leave that agent in two slots. -/
theorem add_twice_occupies_two_slots :
    create goodEnv = some (some loaded) ∧
      (run loaded [Op.addAgent 7, Op.addAgent 7]).map (fun r => slotsOf r.1.agentList 7)
        = some 2 := by
  decide

/-- C2 amended: in every state reached from a freshly loaded NavMesh by registration calls
among which `addNavMeshAgent` is only ever called with an agent that no slot holds at that
moment, each agent occupies at most one slot of the agent slot array. -/
theorem agent_slots_unique (env : Env) (s0 : NavMesh) (ops : List Op)
    (hload : create env = some (some s0)) (hd : addsAbsentOnly s0 ops = true) :
    ∃ s calls, run s0 ops = some (s, calls) ∧ ∀ a, slotsOf s.agentList a ≤ 1 := by
  apply run_unique s0 ops _ hd
  intro a
  rw [(create_slots env s0 hload).1]
  have h0 : (List.replicate MAX_AGENTS (none : Ptr)).count (some a) = 0 :=
    List.count_eq_zero.2 (by simp [List.mem_replicate])
  simp only [slotsOf, h0]
  omega

/-- Witness of `agent_slots_unique`: add, remove and add again the same agent. -/
theorem agent_slots_unique_witness :
    ∃ s calls, run loaded [Op.addAgent 7, Op.removeAgent 7, Op.addAgent 7] = some (s, calls) ∧
      ∀ a, slotsOf s.agentList a ≤ 1 :=
  agent_slots_unique goodEnv loaded [Op.addAgent 7, Op.removeAgent 7, Op.addAgent 7]
    (by decide) (by decide)

/-- C3: when no agent slot is empty (all `MAX_AGENTS` slots occupied), `addNavMeshAgent`
returns the object unchanged and makes no call at all on the agent (no `addTo`, no
`setNavMeshQuery`, no `retain`); and every sequence of registration calls on a freshly
loaded NavMesh returns a state with at most 128 occupied agent slots. -/
theorem addNavMeshAgent_full_noop (s : NavMesh) (agent : Ptr) (env : Env) (s0 : NavMesh)
    (ops : List Op) (hfull : none ∉ s.agentList) (hload : create env = some (some s0)) :
    addNavMeshAgent s agent = some (s, []) ∧
      ∃ s1 calls, run s0 ops = some (s1, calls) ∧ occupied s1.agentList ≤ MAX_AGENTS := by
  refine ⟨addNavMeshAgent_of_full s agent hfull, ?_⟩
  obtain ⟨s1, c, hrun, hlen⟩ := run_total s0 ops
  refine ⟨s1, c, hrun, ?_⟩
  have h0 : s0.agentList.length = MAX_AGENTS := by
    rw [(create_slots env s0 hload).1]
    simp
  have hle : occupied s1.agentList ≤ s1.agentList.length := List.countP_le_length _
  omega

/-- Witness of `addNavMeshAgent_full_noop`: a 129th agent on a full manager, and 130 adds
after a load. -/
theorem addNavMeshAgent_full_noop_witness :
    none ∉ full.agentList ∧ create goodEnv = some (some loaded) ∧
      addNavMeshAgent full (some 500) = some (full, []) ∧
      ∃ s1 calls, run loaded ((List.range 130).map Op.addAgent) = some (s1, calls) ∧
        occupied s1.agentList ≤ MAX_AGENTS :=
  ⟨by decide, by decide,
   addNavMeshAgent_full_noop full (some 500) goodEnv loaded ((List.range 130).map Op.addAgent)
     (by decide) (by decide)⟩

/-- C4: removing an agent (resp. obstacle) that is a valid handle held by no slot returns
the object unchanged and makes no call: no `removeFrom`, no `release`, no
`setNavMeshQuery`. -/
theorem remove_absent_noop (s : NavMesh) (agent obstacle : Nat)
    (ha : some agent ∉ s.agentList) (ho : some obstacle ∉ s.obstacleList) :
    removeNavMeshAgent s (some agent) = some (s, []) ∧
      removeNavMeshObstacle s (some obstacle) = some (s, []) :=
  ⟨removeNavMeshAgent_of_absent s _ ha, removeNavMeshObstacle_of_absent s _ ho⟩

/-- Witness of `remove_absent_noop`: agent `8` and obstacle `5` are not registered. -/
theorem remove_absent_noop_witness :
    some 8 ∉ sparse.agentList ∧ some 5 ∉ sparse.obstacleList ∧
      removeNavMeshAgent sparse (some 8) = some (sparse, []) ∧
      removeNavMeshObstacle sparse (some 5) = some (sparse, []) :=
  ⟨by decide, by decide, remove_absent_noop sparse 8 5 (by decide) (by decide)⟩

/-- C5: when agent `a` occupies exactly one slot, `removeNavMeshAgent(a)` followed by
`addNavMeshAgent(a)` both return, and afterwards `a` occupies exactly one slot, a slot `j`
that was empty after the removal; the number of occupied slots is what it was before the
two calls, and so is the reference count of `a`, whatever its value `rc` before. -/
theorem remove_then_add (s : NavMesh) (a : Nat) (rc : Int) (h : slotsOf s.agentList a = 1) :
    ∃ (s1 : NavMesh) (c1 : List Call) (s2 : NavMesh) (c2 : List Call) (j : Nat),
      removeNavMeshAgent s (some a) = some (s1, c1) ∧
      addNavMeshAgent s1 (some a) = some (s2, c2) ∧
      slotsOf s2.agentList a = 1 ∧
      s1.agentList[j]? = some none ∧ s2.agentList[j]? = some (some a) ∧
      occupied s2.agentList = occupied s.agentList ∧
      agentRefCount a rc (c1 ++ c2) = rc := by
  have hmem : some a ∈ s.agentList := by
    apply List.count_pos_iff.1
    simp only [slotsOf] at h
    omega
  cases hf : find s.agentList (some a) with
  | none => exact absurd hmem ((find_eq_none_iff _ _).1 hf)
  | some i =>
    have hi : i < s.agentList.length := by
      have := find_some_getElem _ _ _ hf
      by_contra hge
      rw [List.getElem?_eq_none (by omega)] at this
      simp at this
    have hmem1 : none ∈ s.agentList.set i none := List.mem_iff_getElem?.2 ⟨i, by simp [hi]⟩
    cases hf1 : find (s.agentList.set i none) none with
    | none => exact absurd hmem1 ((find_eq_none_iff _ _).1 hf1)
    | some j =>
      have hj := find_some_getElem _ _ _ hf1
      have hjl : j < (s.agentList.set i none).length := by
        by_contra hge
        rw [List.getElem?_eq_none (by omega)] at hj
        simp at hj
      have hc1 := count_set_find s.agentList (some a) none (some a) i hf
      have hc2 := count_set_find (s.agentList.set i none) none (some a) (some a) j hf1
      have ho1 := occupied_set_find s.agentList (some a) none i hf
      have ho2 := occupied_set_find (s.agentList.set i none) none (some a) j hf1
      simp only [slotsOf] at h
      simp at hc1 hc2 ho1 ho2
      refine ⟨_, _, _, _, j, removeNavMeshAgent_of_find s a i hf,
        addNavMeshAgent_of_find _ a j hf1, ?_, hj, ?_, ?_, ?_⟩
      · simp only [slotsOf]
        omega
      · simp only [List.length_set] at hjl
        simp [hjl]
      · simp only
        omega
      · simp [agentRefCount]

/-- Witness of `remove_then_add`: agent `9` of `sparse` moves from slot 3 to slot 0. -/
theorem remove_then_add_witness :
    slotsOf sparse.agentList 9 = 1 ∧
      ∃ (s1 : NavMesh) (c1 : List Call) (s2 : NavMesh) (c2 : List Call) (j : Nat),
        removeNavMeshAgent sparse (some 9) = some (s1, c1) ∧
        addNavMeshAgent s1 (some 9) = some (s2, c2) ∧
        slotsOf s2.agentList 9 = 1 ∧
        s1.agentList[j]? = some none ∧ s2.agentList[j]? = some (some 9) ∧
        occupied s2.agentList = occupied sparse.agentList ∧
        agentRefCount 9 2 (c1 ++ c2) = 2 :=
  ⟨by decide, remove_then_add sparse 9 2 (by decide)⟩

/-- The tile loop when every payload buffer is allocated and the stream is not truncated:
it returns, hands over the payloads of the leading valid records, and reads no more than
their headers and payloads and the header of the record that stops it. -/
theorem readTiles_leading (env : Env) (halloc : ∀ i size, env.dtAlloc i size = true)
    (n i : Nat) (tiles : List TileRecord)
    (hstream : n ≤ tiles.length ∨ ∃ r ∈ tiles, isTerminator r) :
    ∃ calls, readTiles env n i tiles = some calls ∧
      addTilePayloads calls = (leadingTiles n tiles).map TileRecord.data ∧
      freads calls = expectedTileFreads (leadingTiles n tiles)
        (decide ((leadingTiles n tiles).length < n)) := by
  induction n generalizing i tiles with
  | zero => exact ⟨[], rfl, by simp [leadingTiles, addTilePayloads],
      by simp [leadingTiles, freads, expectedTileFreads]⟩
  | succ n ih =>
    cases tiles with
    | nil => simp at hstream
    | cons r rest =>
      by_cases ht : isTerminator r
      · refine ⟨[ReadCall.freadTileHeader], ?_, ?_, ?_⟩
        · simp only [readTiles]
          rw [if_pos ht]
        · simp [leadingTiles, ht, addTilePayloads]
        · simp [leadingTiles, ht, freads, expectedTileFreads]
      · have hrest : n ≤ rest.length ∨ ∃ r ∈ rest, isTerminator r := by
          rcases hstream with h | ⟨q, hq, hqt⟩
          · left
            simp only [List.length_cons] at h
            omega
          · right
            rcases List.mem_cons.1 hq with rfl | hq
            · exact absurd hqt ht
            · exact ⟨q, hq, hqt⟩
        obtain ⟨calls, hc, hp, hf⟩ := ih (i + 1) rest hrest
        have heq : readTiles env (n + 1) i (r :: rest) =
            some ([ReadCall.freadTileHeader, ReadCall.dtAlloc r.header.dataSize,
              ReadCall.freadData r.header.dataSize,
              ReadCall.addTile r.data r.header.dataSize]
              ++ (if env.addTile i r.data r.header.dataSize ≠ 0 then
                    [ReadCall.buildNavMeshTile (env.addTile i r.data r.header.dataSize)]
                  else [])
              ++ calls) := by
          simp only [readTiles]
          rw [if_neg ht, if_neg (by simp [halloc]), hc]
          rfl
        refine ⟨_, heq, ?_, ?_⟩
        · simp only [leadingTiles, if_neg ht, List.map_cons]
          simp only [addTilePayloads] at hp ⊢
          split_ifs <;> simp [hp]
        · simp only [leadingTiles, if_neg ht, List.length_cons]
          simp only [freads, expectedTileFreads] at hf ⊢
          split_ifs <;> simp_all

/-- C6: whenever the file opens with a header whose magic differs from `TSET`, or whose
magic matches and whose version differs from 1, `read` returns `false` with the object
exactly as it was (no mesh, tile cache, crowd or query allocated, slot arrays untouched)
after reading the header and closing the file, and `NavMesh::create` returns null. -/
theorem read_rejects_bad_header (this : NavMesh) (env : Env) (file : File)
    (hopen : env.fopen = some file)
    (hbad : file.header.magic ≠ TILECACHESET_MAGIC ∨
      (file.header.magic = TILECACHESET_MAGIC ∧ file.header.version ≠ TILECACHESET_VERSION)) :
    read this env = some (false, this, [ReadCall.freadHeader, ReadCall.fclose]) ∧
      create env = some none := by
  have hr : ∀ t : NavMesh,
      read t env = some (false, t, [ReadCall.freadHeader, ReadCall.fclose]) := by
    intro t
    rcases hbad with h | ⟨h1, h2⟩
    · simp [read, hopen, h]
    · simp [read, hopen, h1, h2]
  refine ⟨hr this, ?_⟩
  unfold create initWithFilePath
  rw [hr ctor]
  split_ifs <;> rfl

/-- Witness of `read_rejects_bad_header`: a file with the right magic and version 2, and
a file whose magic is off by one. -/
theorem read_rejects_bad_header_witness :
    (read ctor badVersionEnv = some (false, ctor, [ReadCall.freadHeader, ReadCall.fclose]) ∧
      create badVersionEnv = some none) ∧
    (read loaded badMagicEnv = some (false, loaded, [ReadCall.freadHeader, ReadCall.fclose]) ∧
      create badMagicEnv = some none) :=
  ⟨read_rejects_bad_header ctor badVersionEnv _ rfl (Or.inr (by decide)),
   read_rejects_bad_header loaded badMagicEnv _ rfl (Or.inl (by decide))⟩

/-- C7 as stated is false. With one valid record announced and present, a failed `dtAlloc`
makes the loop stop at that record: the load returns `true` and the tile cache was handed
nothing, though the longest valid leading run is that record. A stream that ends before
`numTiles` records and before any terminator, and a crowd or query object that cannot
be allocated, leave the load without a defined result. -/
theorem read_tiles_not_always_leading :
    (read ctor allocFailEnv).map (fun r => (r.1, addTilePayloads r.2.2)) = some (true, []) ∧
      (leadingTiles 1 [tileA]).map TileRecord.data = [[1, 2, 3]] ∧
      read ctor truncatedEnv = none ∧
      read ctor noQueryEnv = none := by
  decide

/-- C7 amended: when the loop is reached (header accepted, mesh and tile cache set up), the
stream holds `numTiles` records or a record with `tileRef = 0` or `dataSize = 0`, and every
payload buffer is allocated, the loop hands to the tile cache exactly the payloads of the
longest leading run, among the first `numTiles` records, of records with `tileRef != 0` and
`dataSize != 0`, in file order; after the file header it reads those records and, when a
record stops it, that record's header and nothing more; and with the crowd and the query
object allocated the load returns `true`. -/
theorem read_tiles_until_terminator (this : NavMesh) (env : Env) (file : File)
    (hopen : env.fopen = some file)
    (hmagic : file.header.magic = TILECACHESET_MAGIC)
    (hversion : file.header.version = TILECACHESET_VERSION)
    (hmesh : env.dtAllocNavMesh ≠ none) (hmeshInit : env.navMeshInit = true)
    (hcache : env.dtAllocTileCache ≠ none) (hcacheInit : env.tileCacheInit = true)
    (halloc : ∀ i size, env.dtAlloc i size = true)
    (hstream : file.header.numTiles.toNat ≤ file.tiles.length ∨
      ∃ r ∈ file.tiles, isTerminator r)
    (hcrowd : env.dtAllocCrowd ≠ none) (hquery : env.dtAllocNavMeshQuery ≠ none) :
    ∃ s calls, read this env = some (true, s, calls) ∧
      addTilePayloads calls =
        (leadingTiles file.header.numTiles.toNat file.tiles).map TileRecord.data ∧
      freads calls = ReadCall.freadHeader ::
        expectedTileFreads (leadingTiles file.header.numTiles.toNat file.tiles)
          (decide ((leadingTiles file.header.numTiles.toNat file.tiles).length
            < file.header.numTiles.toNat)) := by
  obtain ⟨tileCalls, hc, hp, hf⟩ :=
    readTiles_leading env halloc file.header.numTiles.toNat 0 file.tiles hstream
  obtain ⟨c, hcr⟩ := Option.ne_none_iff_exists'.1 hcrowd
  obtain ⟨q, hq⟩ := Option.ne_none_iff_exists'.1 hquery
  simp only [read, hopen, hmagic, hversion, ne_eq, not_true_eq_false, if_false,
    if_neg hmesh, if_neg hcache, hmeshInit, hcacheInit, Bool.true_eq_false, hc,
    readTail, hcr, hq]
  refine ⟨_, _, rfl, ?_, ?_⟩
  · simp only [addTilePayloads] at hp ⊢
    simp [List.filterMap_append, hp]
  · simp only [freads] at hf ⊢
    simp [List.filter_append, hf]

/-- Witness of `read_tiles_until_terminator`: four records announced, the third has
`dataSize = 0`; the two before it reach the tile cache and the fourth is never read. -/
theorem read_tiles_until_terminator_witness :
    ∃ s calls, read ctor stoppedEnv = some (true, s, calls) ∧
      addTilePayloads calls = (leadingTiles (4 : Int).toNat stoppedFile.tiles).map TileRecord.data ∧
      freads calls = ReadCall.freadHeader ::
        expectedTileFreads (leadingTiles (4 : Int).toNat stoppedFile.tiles)
          (decide ((leadingTiles (4 : Int).toNat stoppedFile.tiles).length < (4 : Int).toNat)) :=
  read_tiles_until_terminator ctor stoppedEnv stoppedFile rfl (by decide) (by decide)
    (by decide) (by decide) (by decide) (by decide) (fun _ _ => rfl)
    (Or.inl (by decide)) (by decide) (by decide)

theorem readTiles_ignores_init_status (env : Env) (b1 b2 : Bool) (n i : Nat)
    (tiles : List TileRecord) :
    readTiles { env with crowdInit := b1, navMeshQueryInit := b2 } n i tiles
      = readTiles env n i tiles := by
  induction n generalizing i tiles with
  | zero => simp [readTiles]
  | succ n ih =>
    cases tiles with
    | nil => simp [readTiles]
    | cons r rest => simp only [readTiles, ih]

/-- The result of `read` does not depend on what the two unchecked `init` calls return. -/
theorem read_ignores_init_status (this : NavMesh) (env : Env) (b1 b2 : Bool) :
    read this { env with crowdInit := b1, navMeshQueryInit := b2 } = read this env := by
  simp only [read, readTail, readTiles_ignores_init_status]

/-- C8 (fails on the code): with the crowd and the query object allocated and both `init`
calls failing, `read` returns `true` and `create` returns the object; with the crowd not
allocated, `read` calls `init` through the null pointer instead of returning `false`. -/
theorem read_true_despite_failed_init :
    initFailEnv.crowdInit = false ∧ initFailEnv.navMeshQueryInit = false ∧
      (read ctor initFailEnv).map (fun r => r.1) = some true ∧
      create initFailEnv = some (some loaded) ∧
      read ctor noCrowdEnv = none := by
  decide

/-! ## Facts about the smoothing loop of `findPath` -/

theorem store_prepend (pre : List Vec3) (st : LoopState) (p : Vec3) :
    store (prepend pre st) p = prepend pre (store st p) := by
  unfold store prepend
  split_ifs <;> simp

theorem offMesh_prepend (d : Detour) (pre : List Vec3) (st : LoopState) (ref : PolyRef) :
    offMesh d (prepend pre st) ref = prepend pre (offMesh d st ref) := by
  obtain ⟨iterPos, polys, npolys, n, pts⟩ := st
  simp only [offMesh, prepend]
  split
  · rfl
  · split_ifs <;> simp

theorem move_prepend (d : Detour) (pre : List Vec3) (st : LoopState) (moveTgt : Vec3) :
    move d (prepend pre st) moveTgt = prepend pre (move d st moveTgt) := rfl

theorem arrive_prepend (d : Detour) (targetPos steerPos : Vec3) (e o : Bool) (ref : PolyRef)
    (pre : List Vec3) (st : LoopState) :
    arrive d targetPos steerPos e o ref (prepend pre st)
      = (arrive d targetPos steerPos e o ref st).mapState (prepend pre) := by
  unfold arrive
  rw [offMesh_prepend]
  have h1 : (prepend pre st).iterPos = st.iterPos := rfl
  have h2 : ∀ s : LoopState, (prepend pre s).iterPos = s.iterPos := fun _ => rfl
  have h3 : { prepend pre st with iterPos := targetPos }
      = prepend pre { st with iterPos := targetPos } := rfl
  rw [h1, h2, h3]
  split_ifs <;> simp only [Step.mapState, store_prepend]

theorem iterate_prepend (d : Detour) (t : Vec3) (pre : List Vec3) (st : LoopState) :
    iterate d t (prepend pre st) = (iterate d t st).mapState (prepend pre) := by
  unfold iterate
  have h1 : (prepend pre st).iterPos = st.iterPos := rfl
  have h2 : (prepend pre st).polys = st.polys := rfl
  have h3 : (prepend pre st).npolys = st.npolys := rfl
  rw [h1, h2, h3]
  split
  · rfl
  · simp only [move_prepend, arrive_prepend]

theorem smoothLoop_prepend (d : Detour) (t : Vec3) (pre : List Vec3) (fuel : Nat)
    (st : LoopState) :
    smoothLoop d t fuel (prepend pre st) = (smoothLoop d t fuel st).map (prepend pre) := by
  induction fuel generalizing st with
  | zero =>
    unfold smoothLoop
    have h1 : (prepend pre st).npolys = st.npolys := rfl
    have h2 : (prepend pre st).nsmoothPath = st.nsmoothPath := rfl
    rw [h1, h2]
    split_ifs <;> rfl
  | succ fuel ih =>
    unfold smoothLoop
    have h1 : (prepend pre st).npolys = st.npolys := rfl
    have h2 : (prepend pre st).nsmoothPath = st.nsmoothPath := rfl
    rw [h1, h2, iterate_prepend]
    split_ifs
    · cases iterate d t st with
      | exit s1 => rfl
      | next s1 => exact ih s1
    · rfl

theorem store_nsmoothPath (st : LoopState) (p : Vec3) :
    (store st p).nsmoothPath
      = if st.nsmoothPath < MAX_SMOOTH then st.nsmoothPath + 1 else st.nsmoothPath := by
  unfold store
  split_ifs <;> rfl

theorem offMesh_nsmoothPath_ge (d : Detour) (st : LoopState) (ref : PolyRef) :
    st.nsmoothPath ≤ (offMesh d st ref).nsmoothPath := by
  obtain ⟨iterPos, polys, npolys, n, pts⟩ := st
  simp only [offMesh]
  split
  · exact Nat.le_refl _
  · split_ifs
    · simp only
      omega
    · simp only
      omega
    · exact Nat.le_refl _

/-- A pass of the loop body that reaches the closing brace has pushed a waypoint. -/
theorem iterate_next_lt (d : Detour) (t : Vec3) (st s1 : LoopState)
    (h : iterate d t st = Step.next s1) (hn : st.nsmoothPath < MAX_SMOOTH) :
    st.nsmoothPath < s1.nsmoothPath := by
  unfold iterate at h
  split at h
  · simp at h
  · dsimp only at h
    generalize hmv : move d st _ = mv at h
    have hmn : mv.nsmoothPath = st.nsmoothPath := by
      rw [← hmv]
      rfl
    unfold arrive at h
    split_ifs at h
    · simp only [Step.next.injEq] at h
      subst h
      have hge := offMesh_nsmoothPath_ge d mv ‹PolyRef›
      rw [store_nsmoothPath]
      split_ifs <;> omega
    · simp only [Step.next.injEq] at h
      subst h
      rw [store_nsmoothPath, hmn, if_pos hn]
      omega

/-- With `fuel` passes allowed and `MAX_SMOOTH - nsmoothPath ≤ fuel`, the loop returns. -/
theorem smoothLoop_returns (d : Detour) (t : Vec3) (fuel : Nat) (st : LoopState)
    (h : MAX_SMOOTH ≤ fuel + st.nsmoothPath) : ∃ s1, smoothLoop d t fuel st = some s1 := by
  induction fuel generalizing st with
  | zero =>
    unfold smoothLoop
    split_ifs with hc
    · omega
    · exact ⟨st, rfl⟩
  | succ fuel ih =>
    unfold smoothLoop
    split_ifs with hc
    · cases hi : iterate d t st with
      | exit s1 => exact ⟨s1, rfl⟩
      | next s1 =>
        have hlt := iterate_next_lt d t st s1 hi hc.2
        exact ih s1 (by omega)
    · exact ⟨st, rfl⟩

/-- C9: when the corridor search yields `npolys = 0`, `findPath` returns with the caller's
vector exactly as it was (no waypoint is produced: an empty vector stays empty), and this
whatever the phase-B queries (closest-point snap, steering, surface walk, fix-ups, heights,
off-mesh endpoints) would answer: they are not consulted. -/
theorem findPath_no_corridor (d : Detour) (start end_ : Vec3) (pathPoints : List Vec3)
    (h : (d.findPath (d.findNearestPoly start ⟨2, 4, 2⟩) (d.findNearestPoly end_ ⟨2, 4, 2⟩)
      start end_ MAX_POLYS).2 = 0) :
    findPath d start end_ pathPoints = some pathPoints ∧
      findPath d start end_ [] = some [] ∧
      ∀ d2 : Detour, d2.findNearestPoly = d.findNearestPoly → d2.findPath = d.findPath →
        findPath d2 start end_ pathPoints = some pathPoints := by
  have key : ∀ (d2 : Detour) (pts : List Vec3), d2.findNearestPoly = d.findNearestPoly →
      d2.findPath = d.findPath → findPath d2 start end_ pts = some pts := by
    intro d2 pts h1 h2
    unfold findPath
    simp only [h1, h2]
    simp [h]
  exact ⟨key d pathPoints rfl rfl, key d [] rfl rfl, fun d2 h1 h2 => key d2 pathPoints h1 h2⟩

/-- Witness of `findPath_no_corridor`: the mesh `noCorridor`, also with every phase-B
query replaced by those of `flatMesh`. -/
theorem findPath_no_corridor_witness :
    findPath noCorridor origin unitX [stale] = some [stale] ∧
      findPath noCorridor origin unitX [] = some [] ∧
      ∀ d2 : Detour, d2.findNearestPoly = noCorridor.findNearestPoly →
        d2.findPath = noCorridor.findPath →
        findPath d2 origin unitX [stale] = some [stale] :=
  findPath_no_corridor noCorridor origin unitX [stale] rfl

/-- C10 as stated is false: on the same mesh, start and end, a vector that held one stale
point holds four points after `findPath`, the stale one first, and an empty vector holds
three; the results differ with the initial contents. -/
theorem findPath_keeps_old_points :
    findPath flatMesh origin unitX [stale] = some [stale, origin, ⟨1 / 2, 0, 0⟩, unitX] ∧
      findPath flatMesh origin unitX [] = some [origin, ⟨1 / 2, 0, 0⟩, unitX] ∧
      findPath flatMesh origin unitX [stale] ≠ findPath flatMesh origin unitX [] := by
  decide!

/-- C10 amended: `findPath` always returns, and the vector the caller holds afterwards is
its initial contents followed by the waypoints computed by this call; those appended
waypoints are the same for every initial contents (they are what the call leaves in an
empty vector). -/
theorem findPath_appends (d : Detour) (start end_ : Vec3) (pathPoints : List Vec3) :
    ∃ computed, findPath d start end_ [] = some computed ∧
      findPath d start end_ pathPoints = some (pathPoints ++ computed) := by
  rcases hfp : d.findPath (d.findNearestPoly start ⟨2, 4, 2⟩)
    (d.findNearestPoly end_ ⟨2, 4, 2⟩) start end_ MAX_POLYS with ⟨polys, npolys⟩
  simp only [findPath, hfp]
  split_ifs with hn
  · obtain ⟨s1, hs1⟩ := smoothLoop_returns d
      (d.closestPointOnPoly (polys (npolys - 1).toNat) end_) MAX_SMOOTH
      { iterPos := d.closestPointOnPoly (d.findNearestPoly start ⟨2, 4, 2⟩) start,
        polys := polys, npolys := npolys, nsmoothPath := 1,
        pathPoints := [] ++ [d.closestPointOnPoly (d.findNearestPoly start ⟨2, 4, 2⟩) start] }
      (by simp [MAX_SMOOTH])
    refine ⟨s1.pathPoints, by rw [hs1]; rfl, ?_⟩
    have hp := smoothLoop_prepend d (d.closestPointOnPoly (polys (npolys - 1).toNat) end_)
      pathPoints MAX_SMOOTH
      { iterPos := d.closestPointOnPoly (d.findNearestPoly start ⟨2, 4, 2⟩) start,
        polys := polys, npolys := npolys, nsmoothPath := 1,
        pathPoints := [] ++ [d.closestPointOnPoly (d.findNearestPoly start ⟨2, 4, 2⟩) start] }
    rw [hs1] at hp
    simp only [prepend, List.nil_append] at hp
    rw [hp]
    rfl
  · exact ⟨[], rfl, by simp⟩

/-! ## The waypoint budget of `findPath` -/

/-- The budget invariant of the smoothing loop: the vector holds `base` points plus one
per counted waypoint, and the counter is within `MAX_SMOOTH`. -/
theorem store_budget (base : Nat) (st : LoopState) (p : Vec3)
    (h : st.pathPoints.length = base + st.nsmoothPath ∧ st.nsmoothPath ≤ MAX_SMOOTH) :
    (store st p).pathPoints.length = base + (store st p).nsmoothPath ∧
      (store st p).nsmoothPath ≤ MAX_SMOOTH := by
  unfold store
  split_ifs with hn
  · simp only [List.length_append, List.length_singleton]
    omega
  · exact h

theorem offMesh_budget (d : Detour) (base : Nat) (st : LoopState) (ref : PolyRef)
    (h : st.pathPoints.length = base + st.nsmoothPath ∧ st.nsmoothPath ≤ MAX_SMOOTH) :
    (offMesh d st ref).pathPoints.length = base + (offMesh d st ref).nsmoothPath ∧
      (offMesh d st ref).nsmoothPath ≤ MAX_SMOOTH := by
  obtain ⟨iterPos, polys, npolys, n, pts⟩ := st
  simp only at h
  simp only [offMesh]
  split
  · exact h
  · split_ifs with h1 h2
    · simp only [List.length_append, List.length_singleton]
      simp only [Nat.and_one_is_mod, MAX_SMOOTH] at h1 h2 h ⊢
      omega
    · simp only [List.length_append, List.length_singleton]
      omega
    · exact h

theorem iterate_budget (d : Detour) (t : Vec3) (base : Nat) (st : LoopState)
    (h : st.pathPoints.length = base + st.nsmoothPath ∧ st.nsmoothPath ≤ MAX_SMOOTH) :
    ∀ s1, (iterate d t st = Step.exit s1 ∨ iterate d t st = Step.next s1) →
      s1.pathPoints.length = base + s1.nsmoothPath ∧ s1.nsmoothPath ≤ MAX_SMOOTH := by
  intro s1 hs
  unfold iterate at hs
  split at hs
  · rcases hs with hs | hs
    · simp only [Step.exit.injEq] at hs
      subst hs
      exact h
    · simp at hs
  · dsimp only at hs
    generalize hmv : move d st _ = mv at hs
    have hm : mv.pathPoints.length = base + mv.nsmoothPath ∧ mv.nsmoothPath ≤ MAX_SMOOTH := by
      rw [← hmv]
      exact h
    unfold arrive at hs
    split_ifs at hs
    · rcases hs with hs | hs
      · simp only [Step.exit.injEq] at hs
        subst hs
        exact store_budget base _ _ hm
      · simp at hs
    · rcases hs with hs | hs
      · simp at hs
      · simp only [Step.next.injEq] at hs
        subst hs
        exact store_budget base _ _ (offMesh_budget d base mv _ hm)
    · rcases hs with hs | hs
      · simp at hs
      · simp only [Step.next.injEq] at hs
        subst hs
        exact store_budget base _ _ hm

theorem smoothLoop_budget (d : Detour) (t : Vec3) (base fuel : Nat) (st s1 : LoopState)
    (h : st.pathPoints.length = base + st.nsmoothPath ∧ st.nsmoothPath ≤ MAX_SMOOTH)
    (hs : smoothLoop d t fuel st = some s1) :
    s1.pathPoints.length = base + s1.nsmoothPath ∧ s1.nsmoothPath ≤ MAX_SMOOTH := by
  induction fuel generalizing st with
  | zero =>
    unfold smoothLoop at hs
    split_ifs at hs
    simp only [Option.some.injEq] at hs
    subst hs
    exact h
  | succ fuel ih =>
    unfold smoothLoop at hs
    split_ifs at hs
    · cases hi : iterate d t st with
      | exit s2 =>
        rw [hi] at hs
        simp only [Option.some.injEq] at hs
        subst hs
        exact iterate_budget d t base st h s2 (Or.inl hi)
      | next s2 =>
        rw [hi] at hs
        exact ih s2 (iterate_budget d t base st h s2 (Or.inr hi)) hs
    · simp only [Option.some.injEq] at hs
      subst hs
      exact h

/-- C11: for every mesh, start and end and whatever the Detour queries return, `findPath`
returns and has appended at most `MAX_SMOOTH` = 2048 waypoints to the caller's vector,
the iterations that emit an off-mesh entry point twice included. -/
theorem findPath_at_most_MAX_SMOOTH (d : Detour) (start end_ : Vec3) (pathPoints : List Vec3) :
    ∃ out, findPath d start end_ pathPoints = some out ∧
      out.length ≤ pathPoints.length + MAX_SMOOTH ∧ MAX_SMOOTH = 2048 := by
  rcases hfp : d.findPath (d.findNearestPoly start ⟨2, 4, 2⟩)
    (d.findNearestPoly end_ ⟨2, 4, 2⟩) start end_ MAX_POLYS with ⟨polys, npolys⟩
  simp only [findPath, hfp]
  split_ifs with hn
  · obtain ⟨s1, hs1⟩ := smoothLoop_returns d
      (d.closestPointOnPoly (polys (npolys - 1).toNat) end_) MAX_SMOOTH
      { iterPos := d.closestPointOnPoly (d.findNearestPoly start ⟨2, 4, 2⟩) start,
        polys := polys, npolys := npolys, nsmoothPath := 1,
        pathPoints :=
          pathPoints ++ [d.closestPointOnPoly (d.findNearestPoly start ⟨2, 4, 2⟩) start] }
      (by simp [MAX_SMOOTH])
    have hb := smoothLoop_budget d _ pathPoints.length MAX_SMOOTH _ s1
      (by simp [MAX_SMOOTH]) hs1
    refine ⟨s1.pathPoints, by rw [hs1]; rfl, ?_, rfl⟩
    omega
  · exact ⟨pathPoints, rfl, by omega, rfl⟩

/-! ## Termination of the two loops of `findPath` -/

/-- A loop that returns within `fuel` passes returns the same with one more pass allowed. -/
theorem smoothLoop_fuel_succ (d : Detour) (t : Vec3) (fuel : Nat) (st s1 : LoopState)
    (h : smoothLoop d t fuel st = some s1) : smoothLoop d t (fuel + 1) st = some s1 := by
  induction fuel generalizing st with
  | zero =>
    unfold smoothLoop at h ⊢
    split_ifs at h ⊢
    exact h
  | succ fuel ih =>
    unfold smoothLoop at h
    rw [smoothLoop]
    split_ifs at h ⊢
    · cases hi : iterate d t st with
      | exit s2 =>
        rw [hi] at h
        exact h
      | next s2 =>
        rw [hi] at h
        exact ih s2 h
    · exact h

/-- The corridor-advance loop started with `npos + fuel = npolys` (as a count): it leaves
`npos` within `npolys` and stops because its condition is false, not for lack of fuel. -/
theorem advance_exit (polys : PolyArray) (npolys : Int) (ref : PolyRef) (fuel npos : Nat)
    (prevRef polyRef : PolyRef) (h : npos + fuel = npolys.toNat) :
    (advance polys npolys ref fuel npos prevRef polyRef).2.2 ≤ npolys.toNat ∧
      ¬ (((advance polys npolys ref fuel npos prevRef polyRef).2.2 : Int) < npolys ∧
          (advance polys npolys ref fuel npos prevRef polyRef).2.1 ≠ ref) := by
  induction fuel generalizing npos prevRef polyRef with
  | zero =>
    simp only [advance]
    refine ⟨by omega, ?_⟩
    rintro ⟨hc, _⟩
    omega
  | succ fuel ih =>
    simp only [advance]
    split_ifs with hc
    · exact ih (npos + 1) polyRef (polys npos) (by omega)
    · refine ⟨?_, hc⟩
      show npos ≤ npolys.toNat
      omega

/-- C12: the smoothing loop entered with the counter at 1 or more, as `findPath` enters
it, returns within 2047 passes of its body, whatever the Detour queries return (and with
the 2048 passes the model of `findPath` allows it returns the same); every pass that is
entered with `nsmoothPath < MAX_SMOOTH` and does not break strictly increases
`nsmoothPath`; and the corridor-advance loop makes at most `npolys` passes, `npos` being
their number, and stops because its condition is false. -/
theorem smoothing_loop_terminates (d : Detour) (t : Vec3) (st : LoopState)
    (polys : PolyArray) (npolys : Int) (ref : PolyRef) (hn : 1 ≤ st.nsmoothPath) :
    (∃ s1, smoothLoop d t 2047 st = some s1 ∧ smoothLoop d t MAX_SMOOTH st = some s1) ∧
      (∀ s0 s1, s0.nsmoothPath < MAX_SMOOTH → iterate d t s0 = Step.next s1 →
        s0.nsmoothPath < s1.nsmoothPath) ∧
      (advance polys npolys ref npolys.toNat 0 0 (polys 0)).2.2 ≤ npolys.toNat ∧
      ¬ (((advance polys npolys ref npolys.toNat 0 0 (polys 0)).2.2 : Int) < npolys ∧
          (advance polys npolys ref npolys.toNat 0 0 (polys 0)).2.1 ≠ ref) := by
  refine ⟨?_, fun s0 s1 h0 h1 => iterate_next_lt d t s0 s1 h1 h0,
    advance_exit polys npolys ref npolys.toNat 0 0 (polys 0) (by omega)⟩
  obtain ⟨s1, hs1⟩ := smoothLoop_returns d t 2047 st (by simp only [MAX_SMOOTH]; omega)
  exact ⟨s1, hs1, smoothLoop_fuel_succ d t 2047 st s1 hs1⟩

/-- Witness of `smoothing_loop_terminates`: the loop of `findPath jumpMesh origin far`. -/
theorem smoothing_loop_terminates_witness :
    1 ≤ jumpStart.nsmoothPath ∧
      (∃ s1, smoothLoop jumpMesh far 2047 jumpStart = some s1 ∧
        smoothLoop jumpMesh far MAX_SMOOTH jumpStart = some s1) ∧
      (∀ s0 s1, s0.nsmoothPath < MAX_SMOOTH → iterate jumpMesh far s0 = Step.next s1 →
        s0.nsmoothPath < s1.nsmoothPath) ∧
      (advance jumpStart.polys 3 2 (3 : Int).toNat 0 0 (jumpStart.polys 0)).2.2
        ≤ (3 : Int).toNat ∧
      ¬ (((advance jumpStart.polys 3 2 (3 : Int).toNat 0 0 (jumpStart.polys 0)).2.2 : Int) < 3 ∧
          (advance jumpStart.polys 3 2 (3 : Int).toNat 0 0 (jumpStart.polys 0)).2.1 ≠ 2) :=
  ⟨by decide, smoothing_loop_terminates jumpMesh far jumpStart jumpStart.polys 3 2 (by decide)⟩

/-! ## Waypoints emitted by one iteration -/

/-- The off-mesh branch when the connection resolves and two waypoints still fit: the
entry point is pushed once, and a second time exactly when the counter is odd after the
first push; the cursor moves to the exit point, re-heighted on the polygon that heads the
corridor after the advance (height 0 when the height query fails). -/
theorem offMesh_resolved (d : Detour) (m : LoopState) (ref prevRef polyRef : PolyRef)
    (npos : Nat) (startPos endPos : Vec3)
    (hadv : advance m.polys m.npolys ref m.npolys.toNat 0 0 (m.polys 0)
      = (prevRef, polyRef, npos))
    (hres : d.getOffMeshConnectionPolyEndPoints prevRef polyRef = some (startPos, endPos))
    (hbudget : m.nsmoothPath + 2 ≤ MAX_SMOOTH) :
    offMesh d m ref =
      { iterPos := { endPos with
          y := (d.getPolyHeight (shift m.polys m.npolys npos 0) endPos).getD 0 },
        polys := shift m.polys m.npolys npos,
        npolys := m.npolys - npos,
        nsmoothPath := m.nsmoothPath + (if m.nsmoothPath % 2 = 0 then 2 else 1),
        pathPoints := m.pathPoints ++
          (if m.nsmoothPath % 2 = 0 then [startPos, startPos] else [startPos]) } := by
  obtain ⟨iterPos, polys, npolys, n, pts⟩ := m
  simp only at hadv hbudget
  simp only [offMesh, hadv, hres]
  have h1 : n < MAX_SMOOTH := by omega
  simp only [if_pos h1, Nat.and_one_is_mod]
  by_cases hp : n % 2 = 0
  · have h2 : (n + 1) % 2 ≠ 0 := by omega
    simp [hp, h2]
  · have h2 : (n + 1) % 2 = 0 := by omega
    simp [hp, h2]

/-- C13 as stated is false: on `jumpMesh` the very first iteration reaches the off-mesh
connection with one waypoint emitted so far, and the path holds the entry point once,
followed by the re-heighted exit point. -/
theorem offMesh_entry_emitted_once :
    findPath jumpMesh origin far []
        = some [origin, entry, exitFloor, ⟨19 / 2, 0, 0⟩, far] ∧
      [origin, entry, exitFloor, (⟨19 / 2, 0, 0⟩ : Vec3), far].count entry = 1 := by
  decide!

/-- C13 amended: in an iteration whose steering target is an off-mesh connection and not
the end of the path, reached within tolerance after the move `m`, with the connection
endpoints resolved and room for three more waypoints, the iteration appends the entry
point, once when the number of waypoints counted before is odd and twice in a row when it
is even, and right after it the exit point with its height replaced by the height of the
polygon at the head of the remaining corridor (0 when that height query fails); the
cursor is that last point and the loop goes on. The remaining corridor is the corridor
of `m` without the `npos` polygons the advance consumed: its polygon `j` is polygon
`j + npos` of `m`, and its head, when a polygon remains, is polygon `npos` of `m`. -/
theorem offMesh_iteration_emits (d : Detour) (t : Vec3) (st m : LoopState)
    (steerPos : Vec3) (flag : Nat) (ref prevRef polyRef : PolyRef) (npos : Nat)
    (startPos endPos : Vec3)
    (hst : d.getSteerTarget st.iterPos t SLOP st.polys st.npolys = some (steerPos, flag, ref))
    (hend : flag &&& d.DT_STRAIGHTPATH_END = 0)
    (hoff : flag &&& d.DT_STRAIGHTPATH_OFFMESH_CONNECTION ≠ 0)
    (hm : move d st (moveTarget d st.iterPos steerPos false true) = m)
    (hin : d.inRange m.iterPos steerPos SLOP 1 = true)
    (hadv : advance m.polys m.npolys ref m.npolys.toNat 0 0 (m.polys 0)
      = (prevRef, polyRef, npos))
    (hres : d.getOffMeshConnectionPolyEndPoints prevRef polyRef = some (startPos, endPos))
    (hbudget : st.nsmoothPath + 3 ≤ MAX_SMOOTH) :
    ∃ s1, iterate d t st = Step.next s1 ∧
      s1.npolys = m.npolys - npos ∧
      (∀ j : Nat, ((j + npos : Nat) : Int) < m.npolys → s1.polys j = m.polys (j + npos)) ∧
      ((npos : Int) < m.npolys →
        s1.iterPos = { endPos with y := (d.getPolyHeight (m.polys npos) endPos).getD 0 }) ∧
      s1.iterPos = { endPos with y := (d.getPolyHeight (s1.polys 0) endPos).getD 0 } ∧
      s1.pathPoints = st.pathPoints ++
        (if st.nsmoothPath % 2 = 0 then [startPos, startPos] else [startPos]) ++
        [s1.iterPos] := by
  have he : decide (flag &&& d.DT_STRAIGHTPATH_END ≠ 0) = false := by simp [hend]
  have ho : decide (flag &&& d.DT_STRAIGHTPATH_OFFMESH_CONNECTION ≠ 0) = true := by
    simp [hoff]
  have hmn : m.nsmoothPath = st.nsmoothPath := by
    rw [← hm]
    rfl
  have hmp : m.pathPoints = st.pathPoints := by
    rw [← hm]
    rfl
  have hom := offMesh_resolved d m ref prevRef polyRef npos startPos endPos hadv hres
    (by omega)
  rw [hmn, hmp] at hom
  unfold iterate
  rw [hst]
  simp only [he, ho, hm]
  unfold arrive
  simp only [Bool.false_eq_true, false_and, if_false, true_and, hin, if_true, hom]
  refine ⟨_, rfl, ?_⟩
  unfold store
  have hlt : st.nsmoothPath + (if st.nsmoothPath % 2 = 0 then 2 else 1) < MAX_SMOOTH := by
    split_ifs <;> omega
  simp only [if_pos hlt, and_self, and_true, true_and]
  refine ⟨?_, ?_⟩
  · intro j hj
    simp only [shift, if_pos hj]
  · intro hn
    simp only [shift, Nat.zero_add, if_pos hn]

/-- Witness of `offMesh_iteration_emits`, at two states of runs of `findPath` on
`jumpMesh`. From `west` the second pass reaches the connection with two waypoints
emitted: the entry point is appended twice, then the exit point at the floor height 0 of
polygon 3, the head of the remaining corridor (the raw exit point is at height 3, and the
floor of polygon 1 would leave it there). From `origin` the first pass reaches it with one
waypoint emitted and the entry point is appended once. -/
theorem offMesh_iteration_emits_witness :
    findPath jumpMesh west far []
        = some [west, westStep, entry, entry, exitFloor, ⟨19 / 2, 0, 0⟩, far] ∧
      (∃ s0, iterate jumpMesh far jumpWestStart = Step.next s0 ∧
        s0.iterPos = jumpWestSecond.iterPos ∧ s0.npolys = jumpWestSecond.npolys ∧
        s0.nsmoothPath = jumpWestSecond.nsmoothPath ∧
        s0.pathPoints = jumpWestSecond.pathPoints ∧
        ∀ j, s0.polys j = jumpWestSecond.polys j) ∧
      (∃ s1, iterate jumpMesh far jumpWestSecond = Step.next s1 ∧
        s1.npolys = 1 ∧ s1.polys 0 = 3 ∧ s1.iterPos = exitFloor ∧
        s1.pathPoints = [west, westStep, entry, entry, exitFloor]) ∧
      (∃ s1, iterate jumpMesh far jumpStart = Step.next s1 ∧
        s1.npolys = 1 ∧ s1.polys 0 = 3 ∧ s1.iterPos = exitFloor ∧
        s1.pathPoints = [origin, entry, exitFloor]) ∧
      jumpMesh.getPolyHeight 1 exitRaw = some 3 := by
  refine ⟨by decide!, ⟨_, by with_unfolding_all rfl, by decide!, by decide, by decide,
    by decide!, fun _ => rfl⟩, ?_, ?_, rfl⟩
  · obtain ⟨s1, h1, h2, h3, h4, _, h6⟩ := offMesh_iteration_emits jumpMesh far jumpWestSecond
      { jumpWestSecond with iterPos := entry } entry 4 2 1 2 2 entry exitRaw
      rfl (by decide) (by decide) (by with_unfolding_all rfl) (by decide!) (by decide)
      rfl (by decide)
    have hpos : s1.iterPos = exitFloor := (h4 (by decide)).trans (by decide!)
    refine ⟨s1, h1, h2, h3 0 (by decide), hpos, ?_⟩
    rw [h6, hpos]
    decide!
  · obtain ⟨s1, h1, h2, h3, h4, _, h6⟩ := offMesh_iteration_emits jumpMesh far jumpStart
      { jumpStart with iterPos := entry } entry 4 2 1 2 2 entry exitRaw
      rfl (by decide) (by decide) (by with_unfolding_all rfl) (by decide!) (by decide)
      rfl (by decide)
    have hpos : s1.iterPos = exitFloor := (h4 (by decide)).trans (by decide!)
    refine ⟨s1, h1, h2, h3 0 (by decide), hpos, ?_⟩
    rw [h6, hpos]
    decide!

/-- C15 as stated is false: on `hillMesh` the first iteration reaches the end of the path
within tolerance with the cursor re-heighted to `(0, 1/2, 0)`; the path holds the start
point and the snapped end point only, so that iteration emitted one waypoint, and the
re-heighted cursor position is not among the waypoints. -/
theorem end_iteration_emits_one :
    findPath hillMesh origin origin [] = some [origin, origin] ∧
      (move hillMesh hillStart (moveTarget hillMesh origin origin true false)).iterPos
        = ⟨0, 1 / 2, 0⟩ ∧
      (⟨0, 1 / 2, 0⟩ : Vec3) ∉ [origin, origin] := by
  decide!

/-- C15 amended: in a loop iteration that finds a steering target and is entered with
`nsmoothPath < MAX_SMOOTH`, the end-of-path test comes before any waypoint is emitted.
When the target is end-of-path and the re-heighted cursor `m.iterPos` is within
tolerance, the iteration emits exactly one waypoint, the snapped true end point, and
terminates the loop; when neither the end-of-path nor the off-mesh test succeeds (the
cursor is out of tolerance, or the target carries neither flag), it emits exactly one
waypoint, the re-heighted cursor position, and the loop goes on. -/
theorem iteration_emits_after_tests (d : Detour) (t : Vec3) (st m : LoopState)
    (steerPos : Vec3) (flag : Nat) (ref : PolyRef)
    (hst : d.getSteerTarget st.iterPos t SLOP st.polys st.npolys = some (steerPos, flag, ref))
    (hm : move d st (moveTarget d st.iterPos steerPos
      (decide (flag &&& d.DT_STRAIGHTPATH_END ≠ 0))
      (decide (flag &&& d.DT_STRAIGHTPATH_OFFMESH_CONNECTION ≠ 0))) = m)
    (hn : st.nsmoothPath < MAX_SMOOTH) :
    (flag &&& d.DT_STRAIGHTPATH_END ≠ 0 ∧ d.inRange m.iterPos steerPos SLOP 1 = true →
      ∃ s1, iterate d t st = Step.exit s1 ∧ s1.iterPos = t ∧
        s1.pathPoints = st.pathPoints ++ [t]) ∧
    (¬ (flag &&& d.DT_STRAIGHTPATH_END ≠ 0 ∧ d.inRange m.iterPos steerPos SLOP 1 = true) →
      ¬ (flag &&& d.DT_STRAIGHTPATH_OFFMESH_CONNECTION ≠ 0 ∧
          d.inRange m.iterPos steerPos SLOP 1 = true) →
      ∃ s1, iterate d t st = Step.next s1 ∧ s1.iterPos = m.iterPos ∧
        s1.pathPoints = st.pathPoints ++ [m.iterPos]) := by
  have hmn : m.nsmoothPath = st.nsmoothPath := by
    rw [← hm]
    rfl
  have hmp : m.pathPoints = st.pathPoints := by
    rw [← hm]
    rfl
  have hlt : m.nsmoothPath < MAX_SMOOTH := by omega
  constructor
  · rintro ⟨he, hin⟩
    unfold iterate
    rw [hst]
    simp only [hm]
    unfold arrive
    simp only [he, hin, ne_eq, not_false_eq_true, decide_True, and_self, if_true]
    refine ⟨_, rfl, ?_⟩
    unfold store
    simp only [if_pos hlt, hmp, and_self]
  · intro hne hno
    have h1 : ¬ (decide (flag &&& d.DT_STRAIGHTPATH_END ≠ 0) = true ∧
        d.inRange m.iterPos steerPos SLOP 1 = true) := by
      simpa using hne
    have h2 : ¬ (decide (flag &&& d.DT_STRAIGHTPATH_OFFMESH_CONNECTION ≠ 0) = true ∧
        d.inRange m.iterPos steerPos SLOP 1 = true) := by
      simpa using hno
    unfold iterate
    rw [hst]
    simp only [hm]
    unfold arrive
    rw [if_neg h1, if_neg h2]
    refine ⟨_, rfl, ?_⟩
    unfold store
    simp only [if_pos hlt, hmp, and_self]

/-- Witness of `iteration_emits_after_tests`, at the first pass of three runs of
`findPath`: on `hillMesh` from `origin` to `origin` the end is reached within tolerance
and only the end point is emitted; on `flatMesh` from `origin` to `unitX` the end-of-path
target is out of tolerance and the cursor `(1/2, 0, 0)` is emitted; on `interiorMesh`
from `origin` to `up` the target carries no flag and is reached within tolerance, and the
cursor `up` is emitted. -/
theorem iteration_emits_after_tests_witness :
    (∃ s1, iterate hillMesh origin hillStart = Step.exit s1 ∧ s1.iterPos = origin ∧
        s1.pathPoints = [origin] ++ [origin]) ∧
    (∃ s1, iterate flatMesh unitX flatStart = Step.next s1 ∧
        s1.iterPos = (⟨1 / 2, 0, 0⟩ : Vec3) ∧
        s1.pathPoints = [origin] ++ [(⟨1 / 2, 0, 0⟩ : Vec3)]) ∧
    (interiorMesh.inRange up up SLOP 1 = true ∧
      ∃ s1, iterate interiorMesh up flatStart = Step.next s1 ∧ s1.iterPos = up ∧
        s1.pathPoints = [origin] ++ [up]) :=
  ⟨(iteration_emits_after_tests hillMesh origin hillStart
      { hillStart with iterPos := ⟨0, 1 / 2, 0⟩ } origin 2 1 rfl
      (by with_unfolding_all rfl) (by decide)).1 ⟨by decide, by decide!⟩,
   (iteration_emits_after_tests flatMesh unitX flatStart
      { flatStart with iterPos := ⟨1 / 2, 0, 0⟩ } unitX 2 1 rfl
      (by with_unfolding_all rfl) (by decide)).2 (by decide!) (by decide),
   by decide!,
   (iteration_emits_after_tests interiorMesh up flatStart
      { flatStart with iterPos := up } up 0 1 rfl
      (by with_unfolding_all rfl) (by decide)).2 (by decide) (by decide)⟩

/-! ## The frame protocol of `update` -/

/-- A range-for loop that completes has met only occupied slots and called the method
once on each, in slot order. -/
theorem forEach_some (method : Nat → ℚ → Call) (dt : ℚ) (slots : List Ptr)
    (calls : List Call) (h : forEach method dt slots = some calls) :
    ∃ es : List Nat, slots = es.map some ∧ calls = es.map (fun e => method e dt) := by
  induction slots generalizing calls with
  | nil =>
    simp only [forEach, Option.some.injEq] at h
    exact ⟨[], rfl, h.symm⟩
  | cons x rest ih =>
    cases x with
    | none => simp [forEach] at h
    | some e =>
      simp only [forEach, Option.map_eq_some'] at h
      obtain ⟨cs, hcs, rfl⟩ := h
      obtain ⟨es, hes, rfl⟩ := ih cs hcs
      exact ⟨e :: es, by simp [hes], rfl⟩

theorem slotsOf_map_some (es : List Nat) (e : Nat) : slotsOf (es.map some) e = es.count e := by
  unfold slotsOf
  induction es with
  | nil => rfl
  | cons x rest ih =>
    simp only [List.map_cons, List.count_cons, ih, beq_iff_eq, Option.some.injEq]

/-- C14: whenever `update(dt)` runs to completion, every slot is occupied and the calls it
made are, in this order: `preUpdate` on the agents in slot order, `preUpdate` on the
obstacles in slot order, one `update` of the crowd when the crowd exists (none
otherwise), `postUpdate` on the agents in slot order, `postUpdate` on the obstacles in
slot order; so each entity gets one `preUpdate` and one `postUpdate` per slot it
occupies. -/
theorem update_protocol (s : NavMesh) (dt : ℚ) (calls : List Call)
    (h : update s dt = some calls) :
    ∃ agents obstacles : List Nat,
      s.agentList = agents.map some ∧ s.obstacleList = obstacles.map some ∧
      calls = agents.map (fun a => Call.agentPreUpdate a dt)
        ++ obstacles.map (fun o => Call.obstaclePreUpdate o dt)
        ++ (match s.crowed with
            | none => []
            | some c => [Call.crowdUpdate c dt])
        ++ agents.map (fun a => Call.agentPostUpdate a dt)
        ++ obstacles.map (fun o => Call.obstaclePostUpdate o dt) ∧
      (∀ a, calls.count (Call.agentPreUpdate a dt) = slotsOf s.agentList a ∧
        calls.count (Call.agentPostUpdate a dt) = slotsOf s.agentList a) ∧
      (∀ o, calls.count (Call.obstaclePreUpdate o dt) = slotsOf s.obstacleList o ∧
        calls.count (Call.obstaclePostUpdate o dt) = slotsOf s.obstacleList o) := by
  unfold update at h
  cases h1 : forEach Call.agentPreUpdate dt s.agentList with
  | none => simp [h1] at h
  | some c1 =>
    cases h2 : forEach Call.obstaclePreUpdate dt s.obstacleList with
    | none => simp [h1, h2] at h
    | some c2 =>
      cases h4 : forEach Call.agentPostUpdate dt s.agentList with
      | none => simp [h1, h2, h4] at h
      | some c4 =>
        cases h5 : forEach Call.obstaclePostUpdate dt s.obstacleList with
        | none => simp [h1, h2, h4, h5] at h
        | some c5 =>
          simp only [h1, h2, h4, h5, Option.some.injEq] at h
          obtain ⟨agents, ha, rfl⟩ := forEach_some _ dt _ c1 h1
          obtain ⟨obstacles, ho, rfl⟩ := forEach_some _ dt _ c2 h2
          obtain ⟨agents2, ha2, rfl⟩ := forEach_some _ dt _ c4 h4
          obtain ⟨obstacles2, ho2, rfl⟩ := forEach_some _ dt _ c5 h5
          have ea : agents2 = agents := by
            have := ha.symm.trans ha2
            exact ((List.map_injective_iff.2 (Option.some_injective Nat)) this).symm
          have eo : obstacles2 = obstacles := by
            have := ho.symm.trans ho2
            exact ((List.map_injective_iff.2 (Option.some_injective Nat)) this).symm
          subst ea eo
          have inj1 : Function.Injective (fun a => Call.agentPreUpdate a dt) :=
            fun a b hab => by simpa using hab
          have inj2 : Function.Injective (fun a => Call.agentPostUpdate a dt) :=
            fun a b hab => by simpa using hab
          have inj3 : Function.Injective (fun a => Call.obstaclePreUpdate a dt) :=
            fun a b hab => by simpa using hab
          have inj4 : Function.Injective (fun a => Call.obstaclePostUpdate a dt) :=
            fun a b hab => by simpa using hab
          have hcrowd : ∀ x : Call, (∀ c, x ≠ Call.crowdUpdate c dt) →
              List.count x (match s.crowed with
                | none => []
                | some c => [Call.crowdUpdate c dt]) = 0 := by
            intro x hx
            cases s.crowed with
            | none => rfl
            | some c =>
              refine List.count_eq_zero.2 ?_
              simp only [List.mem_singleton]
              exact hx c
          refine ⟨agents2, obstacles2, ha, ho, h.symm, ?_, ?_⟩
          · intro a
            have k1 := List.count_map_of_injective agents2 _ inj1 a
            have k2 := List.count_map_of_injective agents2 _ inj2 a
            simp only at k1 k2
            have z1 := hcrowd (Call.agentPreUpdate a dt) (by simp)
            have z2 := hcrowd (Call.agentPostUpdate a dt) (by simp)
            rw [← h, ha, slotsOf_map_some]
            simp only [List.count_append, k1, k2, z1, z2]
            constructor
            · have e1 : List.count (Call.agentPreUpdate a dt)
                  (obstacles2.map (fun o => Call.obstaclePreUpdate o dt)) = 0 :=
                List.count_eq_zero.2 (by simp)
              have e2 : List.count (Call.agentPreUpdate a dt)
                  (agents2.map (fun o => Call.agentPostUpdate o dt)) = 0 :=
                List.count_eq_zero.2 (by simp)
              have e3 : List.count (Call.agentPreUpdate a dt)
                  (obstacles2.map (fun o => Call.obstaclePostUpdate o dt)) = 0 :=
                List.count_eq_zero.2 (by simp)
              omega
            · have e1 : List.count (Call.agentPostUpdate a dt)
                  (obstacles2.map (fun o => Call.obstaclePreUpdate o dt)) = 0 :=
                List.count_eq_zero.2 (by simp)
              have e2 : List.count (Call.agentPostUpdate a dt)
                  (agents2.map (fun o => Call.agentPreUpdate o dt)) = 0 :=
                List.count_eq_zero.2 (by simp)
              have e3 : List.count (Call.agentPostUpdate a dt)
                  (obstacles2.map (fun o => Call.obstaclePostUpdate o dt)) = 0 :=
                List.count_eq_zero.2 (by simp)
              omega
          · intro o
            have k3 := List.count_map_of_injective obstacles2 _ inj3 o
            have k4 := List.count_map_of_injective obstacles2 _ inj4 o
            simp only at k3 k4
            have z1 := hcrowd (Call.obstaclePreUpdate o dt) (by simp)
            have z2 := hcrowd (Call.obstaclePostUpdate o dt) (by simp)
            rw [← h, ho, slotsOf_map_some]
            simp only [List.count_append, k3, k4, z1, z2]
            constructor
            · have e1 : List.count (Call.obstaclePreUpdate o dt)
                  (agents2.map (fun o => Call.agentPreUpdate o dt)) = 0 :=
                List.count_eq_zero.2 (by simp)
              have e2 : List.count (Call.obstaclePreUpdate o dt)
                  (agents2.map (fun o => Call.agentPostUpdate o dt)) = 0 :=
                List.count_eq_zero.2 (by simp)
              have e3 : List.count (Call.obstaclePreUpdate o dt)
                  (obstacles2.map (fun o => Call.obstaclePostUpdate o dt)) = 0 :=
                List.count_eq_zero.2 (by simp)
              omega
            · have e1 : List.count (Call.obstaclePostUpdate o dt)
                  (agents2.map (fun o => Call.agentPreUpdate o dt)) = 0 :=
                List.count_eq_zero.2 (by simp)
              have e2 : List.count (Call.obstaclePostUpdate o dt)
                  (agents2.map (fun o => Call.agentPostUpdate o dt)) = 0 :=
                List.count_eq_zero.2 (by simp)
              have e3 : List.count (Call.obstaclePostUpdate o dt)
                  (obstacles2.map (fun o => Call.obstaclePreUpdate o dt)) = 0 :=
                List.count_eq_zero.2 (by simp)
              omega

/-- Witness of `update_protocol`: the manager `busy`, whose slots are all occupied. -/
theorem update_protocol_witness :
    update busy (1 / 60) = some
        [Call.agentPreUpdate 1 (1 / 60), Call.agentPreUpdate 2 (1 / 60),
         Call.obstaclePreUpdate 4 (1 / 60), Call.crowdUpdate 3 (1 / 60),
         Call.agentPostUpdate 1 (1 / 60), Call.agentPostUpdate 2 (1 / 60),
         Call.obstaclePostUpdate 4 (1 / 60)] ∧
      ∃ agents obstacles : List Nat,
        busy.agentList = agents.map some ∧ busy.obstacleList = obstacles.map some ∧
        [Call.agentPreUpdate 1 (1 / 60), Call.agentPreUpdate 2 (1 / 60),
         Call.obstaclePreUpdate 4 (1 / 60), Call.crowdUpdate 3 (1 / 60),
         Call.agentPostUpdate 1 (1 / 60), Call.agentPostUpdate 2 (1 / 60),
         Call.obstaclePostUpdate 4 (1 / 60)]
          = agents.map (fun a => Call.agentPreUpdate a (1 / 60))
            ++ obstacles.map (fun o => Call.obstaclePreUpdate o (1 / 60))
            ++ (match busy.crowed with
                | none => []
                | some c => [Call.crowdUpdate c (1 / 60)])
            ++ agents.map (fun a => Call.agentPostUpdate a (1 / 60))
            ++ obstacles.map (fun o => Call.obstaclePostUpdate o (1 / 60)) ∧
        (∀ a, List.count (Call.agentPreUpdate a (1 / 60))
              [Call.agentPreUpdate 1 (1 / 60), Call.agentPreUpdate 2 (1 / 60),
               Call.obstaclePreUpdate 4 (1 / 60), Call.crowdUpdate 3 (1 / 60),
               Call.agentPostUpdate 1 (1 / 60), Call.agentPostUpdate 2 (1 / 60),
               Call.obstaclePostUpdate 4 (1 / 60)] = slotsOf busy.agentList a ∧
            List.count (Call.agentPostUpdate a (1 / 60))
              [Call.agentPreUpdate 1 (1 / 60), Call.agentPreUpdate 2 (1 / 60),
               Call.obstaclePreUpdate 4 (1 / 60), Call.crowdUpdate 3 (1 / 60),
               Call.agentPostUpdate 1 (1 / 60), Call.agentPostUpdate 2 (1 / 60),
               Call.obstaclePostUpdate 4 (1 / 60)] = slotsOf busy.agentList a) ∧
        (∀ o, List.count (Call.obstaclePreUpdate o (1 / 60))
              [Call.agentPreUpdate 1 (1 / 60), Call.agentPreUpdate 2 (1 / 60),
               Call.obstaclePreUpdate 4 (1 / 60), Call.crowdUpdate 3 (1 / 60),
               Call.agentPostUpdate 1 (1 / 60), Call.agentPostUpdate 2 (1 / 60),
               Call.obstaclePostUpdate 4 (1 / 60)] = slotsOf busy.obstacleList o ∧
            List.count (Call.obstaclePostUpdate o (1 / 60))
              [Call.agentPreUpdate 1 (1 / 60), Call.agentPreUpdate 2 (1 / 60),
               Call.obstaclePreUpdate 4 (1 / 60), Call.crowdUpdate 3 (1 / 60),
               Call.agentPostUpdate 1 (1 / 60), Call.agentPostUpdate 2 (1 / 60),
               Call.obstaclePostUpdate 4 (1 / 60)] = slotsOf busy.obstacleList o) :=
  ⟨by decide!, update_protocol busy (1 / 60) _ (by decide!)⟩

/-! ## Registration: the slot taken and the reference counts -/

theorem agentRefCount_add (a : Nat) (rc : Int) (crowd query : Ptr) :
    agentRefCount a rc [Call.agentAddTo a crowd, Call.agentSetNavMeshQuery a query,
      Call.agentRetain a] = rc + 1 := by
  simp [agentRefCount]

theorem obstacleRefCount_add (o : Nat) (rc : Int) (tileCache : Ptr) :
    obstacleRefCount o rc [Call.obstacleAddTo o tileCache, Call.obstacleRetain o] = rc + 1 := by
  simp [obstacleRefCount]

/-- What `std::find` returning index `i` says about writing slot `i`. -/
theorem set_find_frame (xs : List Ptr) (v w : Ptr) (i : Nat) (h : find xs v = some i) :
    xs[i]? = some v ∧ (∀ j, j < i → xs[j]? ≠ some v) ∧
      (xs.set i w)[i]? = some w ∧ (∀ j, j ≠ i → (xs.set i w)[j]? = xs[j]?) ∧
      (xs.set i w).length = xs.length := by
  have hi : i < xs.length := by
    have := find_some_getElem _ _ _ h
    by_contra hge
    rw [List.getElem?_eq_none (by omega)] at this
    simp at this
  refine ⟨find_some_getElem _ _ _ h, find_some_first _ _ _ h, by simp [hi], ?_, by simp⟩
  intro j hj
  rw [List.getElem?_set_ne (Ne.symm hj)]

/-- C16: when the agent (resp. obstacle) slot array has an empty slot, `addNavMeshAgent`
(resp. `addNavMeshObstacle`) with a valid handle stores the entity in the empty slot of
lowest index `i`, leaves every other slot and the array length as they were, and makes
exactly these calls: one `addTo` with the manager's crowd (resp. tile cache), for an agent
one `setNavMeshQuery` with the manager's query object, and one `retain`, which takes the
reference count from `rc` to `rc + 1`. -/
theorem add_takes_first_empty_slot (s : NavMesh) (agent obstacle : Nat) (rc : Int) :
    (none ∈ s.agentList →
      ∃ i, addNavMeshAgent s (some agent) =
          some ({ s with agentList := s.agentList.set i (some agent) },
            [Call.agentAddTo agent s.crowed, Call.agentSetNavMeshQuery agent s.navMeshQuery,
             Call.agentRetain agent]) ∧
        s.agentList[i]? = some none ∧ (∀ j, j < i → s.agentList[j]? ≠ some none) ∧
        (s.agentList.set i (some agent))[i]? = some (some agent) ∧
        (∀ j, j ≠ i → (s.agentList.set i (some agent))[j]? = s.agentList[j]?) ∧
        (s.agentList.set i (some agent)).length = s.agentList.length ∧
        agentRefCount agent rc [Call.agentAddTo agent s.crowed,
          Call.agentSetNavMeshQuery agent s.navMeshQuery, Call.agentRetain agent] = rc + 1) ∧
    (none ∈ s.obstacleList →
      ∃ i, addNavMeshObstacle s (some obstacle) =
          some ({ s with obstacleList := s.obstacleList.set i (some obstacle) },
            [Call.obstacleAddTo obstacle s.tileCache, Call.obstacleRetain obstacle]) ∧
        s.obstacleList[i]? = some none ∧ (∀ j, j < i → s.obstacleList[j]? ≠ some none) ∧
        (s.obstacleList.set i (some obstacle))[i]? = some (some obstacle) ∧
        (∀ j, j ≠ i → (s.obstacleList.set i (some obstacle))[j]? = s.obstacleList[j]?) ∧
        (s.obstacleList.set i (some obstacle)).length = s.obstacleList.length ∧
        obstacleRefCount obstacle rc [Call.obstacleAddTo obstacle s.tileCache,
          Call.obstacleRetain obstacle] = rc + 1) := by
  constructor
  · intro hmem
    cases hf : find s.agentList none with
    | none => exact absurd hmem ((find_eq_none_iff _ _).1 hf)
    | some i =>
      obtain ⟨h1, h2, h3, h4, h5⟩ := set_find_frame s.agentList none (some agent) i hf
      exact ⟨i, addNavMeshAgent_of_find s agent i hf, h1, h2, h3, h4, h5,
        agentRefCount_add agent rc _ _⟩
  · intro hmem
    cases hf : find s.obstacleList none with
    | none => exact absurd hmem ((find_eq_none_iff _ _).1 hf)
    | some i =>
      obtain ⟨h1, h2, h3, h4, h5⟩ := set_find_frame s.obstacleList none (some obstacle) i hf
      exact ⟨i, by simp [addNavMeshObstacle, hf], h1, h2, h3, h4, h5,
        obstacleRefCount_add obstacle rc _⟩

/-- Witness of `add_takes_first_empty_slot`: on `sparse` agent `5` and obstacle `6` both
go to slot 0. -/
theorem add_takes_first_empty_slot_witness :
    (∃ i, addNavMeshAgent sparse (some 5) =
          some ({ sparse with agentList := sparse.agentList.set i (some 5) },
            [Call.agentAddTo 5 sparse.crowed, Call.agentSetNavMeshQuery 5 sparse.navMeshQuery,
             Call.agentRetain 5]) ∧
        sparse.agentList[i]? = some none ∧ (∀ j, j < i → sparse.agentList[j]? ≠ some none) ∧
        (sparse.agentList.set i (some 5))[i]? = some (some 5) ∧
        (∀ j, j ≠ i → (sparse.agentList.set i (some 5))[j]? = sparse.agentList[j]?) ∧
        (sparse.agentList.set i (some 5)).length = sparse.agentList.length ∧
        agentRefCount 5 2 [Call.agentAddTo 5 sparse.crowed,
          Call.agentSetNavMeshQuery 5 sparse.navMeshQuery, Call.agentRetain 5] = 2 + 1) ∧
    (∃ i, addNavMeshObstacle sparse (some 6) =
          some ({ sparse with obstacleList := sparse.obstacleList.set i (some 6) },
            [Call.obstacleAddTo 6 sparse.tileCache, Call.obstacleRetain 6]) ∧
        sparse.obstacleList[i]? = some none ∧
        (∀ j, j < i → sparse.obstacleList[j]? ≠ some none) ∧
        (sparse.obstacleList.set i (some 6))[i]? = some (some 6) ∧
        (∀ j, j ≠ i → (sparse.obstacleList.set i (some 6))[j]? = sparse.obstacleList[j]?) ∧
        (sparse.obstacleList.set i (some 6)).length = sparse.obstacleList.length ∧
        obstacleRefCount 6 2 [Call.obstacleAddTo 6 sparse.tileCache,
          Call.obstacleRetain 6] = 2 + 1) :=
  ⟨(add_takes_first_empty_slot sparse 5 6 2).1 (by decide),
   (add_takes_first_empty_slot sparse 5 6 2).2 (by decide)⟩

/-- One registration call keeps, for every entity, retains plus slots held before equal
to releases plus slots held after. -/
theorem step_balance (s : NavMesh) (op : Op) :
    ∃ s1 c, step s op = some (s1, c) ∧ ∀ e,
      (c.count (Call.agentRetain e) + slotsOf s.agentList e
        = c.count (Call.agentRelease e) + slotsOf s1.agentList e) ∧
      (c.count (Call.obstacleRetain e) + slotsOf s.obstacleList e
        = c.count (Call.obstacleRelease e) + slotsOf s1.obstacleList e) := by
  cases op with
  | addAgent a =>
    cases h : find s.agentList none with
    | none => exact ⟨s, [], by simp [step, addNavMeshAgent, h], fun e => by simp⟩
    | some i =>
      simp only [step, addNavMeshAgent, h]
      refine ⟨_, _, rfl, fun e => ?_⟩
      have hc := count_set_find s.agentList none (some a) (some e) i h
      simp only [slotsOf]
      by_cases hae : a = e
      · subst hae
        simp at hc
        simp [List.count_cons]
        omega
      · simp [hae] at hc
        simp [List.count_cons, hae]
        omega
  | removeAgent a =>
    cases h : find s.agentList (some a) with
    | none => exact ⟨s, [], by simp [step, removeNavMeshAgent, h], fun e => by simp⟩
    | some i =>
      simp only [step, removeNavMeshAgent, h]
      refine ⟨_, _, rfl, fun e => ?_⟩
      have hc := count_set_find s.agentList (some a) none (some e) i h
      simp only [slotsOf]
      by_cases hae : a = e
      · subst hae
        simp at hc
        simp [List.count_cons]
        omega
      · simp [hae] at hc
        simp [List.count_cons, hae]
        omega
  | addObstacle o =>
    cases h : find s.obstacleList none with
    | none => exact ⟨s, [], by simp [step, addNavMeshObstacle, h], fun e => by simp⟩
    | some i =>
      simp only [step, addNavMeshObstacle, h]
      refine ⟨_, _, rfl, fun e => ?_⟩
      have hc := count_set_find s.obstacleList none (some o) (some e) i h
      simp only [slotsOf]
      by_cases hoe : o = e
      · subst hoe
        simp at hc
        simp [List.count_cons]
        omega
      · simp [hoe] at hc
        simp [List.count_cons, hoe]
        omega
  | removeObstacle o =>
    cases h : find s.obstacleList (some o) with
    | none => exact ⟨s, [], by simp [step, removeNavMeshObstacle, h], fun e => by simp⟩
    | some i =>
      simp only [step, removeNavMeshObstacle, h]
      refine ⟨_, _, rfl, fun e => ?_⟩
      have hc := count_set_find s.obstacleList (some o) none (some e) i h
      simp only [slotsOf]
      by_cases hoe : o = e
      · subst hoe
        simp at hc
        simp [List.count_cons]
        omega
      · simp [hoe] at hc
        simp [List.count_cons, hoe]
        omega

theorem run_balance (s : NavMesh) (ops : List Op) :
    ∃ s1 c, run s ops = some (s1, c) ∧ ∀ e,
      (c.count (Call.agentRetain e) + slotsOf s.agentList e
        = c.count (Call.agentRelease e) + slotsOf s1.agentList e) ∧
      (c.count (Call.obstacleRetain e) + slotsOf s.obstacleList e
        = c.count (Call.obstacleRelease e) + slotsOf s1.obstacleList e) := by
  induction ops generalizing s with
  | nil => exact ⟨s, [], rfl, fun e => by simp⟩
  | cons op ops ih =>
    obtain ⟨s1, c1, h1, hb1⟩ := step_balance s op
    obtain ⟨s2, c2, h2, hb2⟩ := ih s1
    refine ⟨s2, c1 ++ c2, by simp [run, h1, h2], fun e => ?_⟩
    have a1 := hb1 e
    have a2 := hb2 e
    simp only [List.count_append]
    omega

/-- C18: in every state reached from a freshly loaded NavMesh by a sequence of add and
remove calls on agents and obstacles with valid handles, for each entity the number of
`retain` calls the manager made equals the number of its `release` calls plus the number
of slots that hold the entity now; so the releases never exceed the retains, also for an
entity added more than once. -/
theorem refcount_balance (env : Env) (s0 : NavMesh) (ops : List Op)
    (hload : create env = some (some s0)) :
    ∃ s calls, run s0 ops = some (s, calls) ∧ ∀ e,
      (calls.count (Call.agentRetain e)
        = calls.count (Call.agentRelease e) + slotsOf s.agentList e) ∧
      (calls.count (Call.obstacleRetain e)
        = calls.count (Call.obstacleRelease e) + slotsOf s.obstacleList e) ∧
      calls.count (Call.agentRelease e) ≤ calls.count (Call.agentRetain e) ∧
      calls.count (Call.obstacleRelease e) ≤ calls.count (Call.obstacleRetain e) := by
  obtain ⟨s, calls, hrun, hb⟩ := run_balance s0 ops
  obtain ⟨ha, k, ho⟩ := create_slots env s0 hload
  refine ⟨s, calls, hrun, fun e => ?_⟩
  have h0a : slotsOf s0.agentList e = 0 := by
    rw [ha]
    exact List.count_eq_zero.2 (by simp [List.mem_replicate])
  have h0o : slotsOf s0.obstacleList e = 0 := by
    rw [ho]
    exact List.count_eq_zero.2 (by simp [List.mem_replicate])
  have := hb e
  omega

/-- Witness of `refcount_balance`: agent `7` added twice and removed once, obstacle `4`
added and removed. -/
theorem refcount_balance_witness :
    create goodEnv = some (some loaded) ∧
      ∃ s calls, run loaded [Op.addAgent 7, Op.addAgent 7, Op.addObstacle 4,
          Op.removeAgent 7, Op.removeObstacle 4] = some (s, calls) ∧ ∀ e,
        (calls.count (Call.agentRetain e)
          = calls.count (Call.agentRelease e) + slotsOf s.agentList e) ∧
        (calls.count (Call.obstacleRetain e)
          = calls.count (Call.obstacleRelease e) + slotsOf s.obstacleList e) ∧
        calls.count (Call.agentRelease e) ≤ calls.count (Call.agentRetain e) ∧
        calls.count (Call.obstacleRelease e) ≤ calls.count (Call.obstacleRetain e) :=
  ⟨by decide, refcount_balance goodEnv loaded _ (by decide)⟩

/-! ## The movement step of `findPath` -/

/-- The movement step of the model of `findPath` is `moveTargetOver` at `K = ℚ`. -/
theorem moveTarget_eq_over (d : Detour) (iterPos steerPos : Vec3) (e o : Bool) :
    moveTarget d iterPos steerPos e o
      = Vec3.ofOver (moveTargetOver d.dtMathSqrtf iterPos.toOver steerPos.toOver e o) := rfl

theorem moveTargetOver_eq {K : Type} [LinearOrderedField K] (sqrtf : K → K)
    (iterPos steerPos : Vec3Over K) (e o : Bool) (len : K)
    (hs : sqrtf (dtVdotOver (dtVsubOver steerPos iterPos) (dtVsubOver steerPos iterPos))
      = len) :
    moveTargetOver sqrtf iterPos steerPos e o
      = dtVmadOver iterPos (dtVsubOver steerPos iterPos) (stepFraction (e || o) len) := by
  simp only [moveTargetOver, stepFraction, hs]

theorem stepFraction_sq {K : Type} [LinearOrderedField K] (b : Bool) (len : K)
    (hlen : 0 < len) :
    stepFraction b len * stepFraction b len * (len * len)
      = stepLength b len * stepLength b len := by
  have hne : len ≠ 0 := ne_of_gt hlen
  unfold stepFraction stepLength
  by_cases hb : b = true
  · by_cases hl : len < 1 / 2
    · rw [if_pos ⟨hb, hl⟩, if_pos hb, min_eq_left (le_of_lt hl)]
      ring
    · rw [if_neg (fun h => hl h.2), if_pos hb, min_eq_right (not_lt.1 hl)]
      field_simp
      ring
  · rw [if_neg (fun h => hb h.1), if_neg hb]
    field_simp
    ring

/-- C17: with the floats taken in any ordered field `K` (the reals among them, where every
distance has its root), for every cursor `iterPos` and steering target `steerPos` at
distance `len > 0`, `len` being the root of the squared distance that `dtMathSqrtf`
returns, the move target is `iterPos + t * (steerPos - iterPos)` with `t = 1` when the
target is end-of-path or an off-mesh connection and `len < 0.5`, and `t = 0.5 / len`
otherwise; the step from `iterPos` to the move target has length `min(len, 0.5)` for
end-of-path and off-mesh targets, where `0 < t ≤ 1` (the move target is not beyond the
steering target), and length `0.5` for interior targets. Lengths are positive and
compared through their squares. The movement step of the model of `findPath` is this
one at `K = ℚ`. -/
theorem moveTarget_step {K : Type} [LinearOrderedField K] (sqrtf : K → K)
    (iterPos steerPos : Vec3Over K) (endOfPath offMeshConnection : Bool) (len : K)
    (hs : sqrtf (dtVdotOver (dtVsubOver steerPos iterPos) (dtVsubOver steerPos iterPos))
      = len)
    (hsq : len * len = dtVdotOver (dtVsubOver steerPos iterPos) (dtVsubOver steerPos iterPos))
    (hlen : 0 < len) :
    (moveTargetOver sqrtf iterPos steerPos endOfPath offMeshConnection).x
        = iterPos.x + stepFraction (endOfPath || offMeshConnection) len
            * (steerPos.x - iterPos.x) ∧
      (moveTargetOver sqrtf iterPos steerPos endOfPath offMeshConnection).y
        = iterPos.y + stepFraction (endOfPath || offMeshConnection) len
            * (steerPos.y - iterPos.y) ∧
      (moveTargetOver sqrtf iterPos steerPos endOfPath offMeshConnection).z
        = iterPos.z + stepFraction (endOfPath || offMeshConnection) len
            * (steerPos.z - iterPos.z) ∧
      dtVdotOver
          (dtVsubOver (moveTargetOver sqrtf iterPos steerPos endOfPath offMeshConnection)
            iterPos)
          (dtVsubOver (moveTargetOver sqrtf iterPos steerPos endOfPath offMeshConnection)
            iterPos)
        = stepLength (endOfPath || offMeshConnection) len
            * stepLength (endOfPath || offMeshConnection) len ∧
      0 < stepLength (endOfPath || offMeshConnection) len ∧
      ((endOfPath || offMeshConnection) = true →
        stepLength (endOfPath || offMeshConnection) len = min len (1 / 2) ∧
        0 < stepFraction (endOfPath || offMeshConnection) len ∧
        stepFraction (endOfPath || offMeshConnection) len ≤ 1) ∧
      ((endOfPath || offMeshConnection) = false →
        stepLength (endOfPath || offMeshConnection) len = 1 / 2 ∧
        stepFraction (endOfPath || offMeshConnection) len = (1 / 2) / len) ∧
      ∀ (d : Detour) (p q : Vec3),
        moveTarget d p q endOfPath offMeshConnection
          = Vec3.ofOver (moveTargetOver d.dtMathSqrtf p.toOver q.toOver
              endOfPath offMeshConnection) := by
  have hmt := moveTargetOver_eq sqrtf iterPos steerPos endOfPath offMeshConnection len hs
  refine ⟨?_, ?_, ?_, ?_, ?_, ?_, ?_, fun d p q => rfl⟩
  · rw [hmt]
    simp only [dtVmadOver, dtVsubOver]
    ring
  · rw [hmt]
    simp only [dtVmadOver, dtVsubOver]
    ring
  · rw [hmt]
    simp only [dtVmadOver, dtVsubOver]
    ring
  · rw [hmt, ← stepFraction_sq _ len hlen, hsq]
    simp only [dtVmadOver, dtVsubOver, dtVdotOver]
    ring
  · unfold stepLength
    split_ifs
    · exact lt_min hlen (by norm_num)
    · norm_num
  · intro hb
    rw [hb]
    refine ⟨by simp [stepLength], ?_, ?_⟩
    · unfold stepFraction
      split_ifs
      · norm_num
      · positivity
    · unfold stepFraction
      split_ifs with h
      · exact le_refl 1
      · have hl : 1 / 2 ≤ len := by
          by_contra hc
          exact h ⟨rfl, not_le.1 hc⟩
        rw [div_le_one hlen]
        exact hl
  · intro hb
    rw [hb]
    refine ⟨by simp [stepLength], ?_⟩
    simp [stepFraction]

/-- Witness of `moveTarget_step`, at three inputs. Over the reals, from `(0, 0, 0)` toward
the interior target `(1, 1, 0)` at the irrational distance `√2`: the step has length
`1/2`. Over ℚ with the square root of `jumpMesh`, from `origin` toward `entry` at distance
`1/4`: as an off-mesh target the step is clamped, `t = 1`, and lands on `entry`; as an
interior target `t = 2` and the step of length `1/2` goes past it to `(1/2, 0, 0)`. -/
theorem moveTarget_step_witness :
    (dtVdotOver
        (dtVsubOver (moveTargetOver Real.sqrt ⟨0, 0, 0⟩ ⟨1, 1, 0⟩ false false) ⟨0, 0, 0⟩)
        (dtVsubOver (moveTargetOver Real.sqrt ⟨0, 0, 0⟩ ⟨1, 1, 0⟩ false false) ⟨0, 0, 0⟩)
        = stepLength (false || false) (Real.sqrt 2)
            * stepLength (false || false) (Real.sqrt 2) ∧
      stepLength (false || false) (Real.sqrt 2) = 1 / 2 ∧
      stepFraction (false || false) (Real.sqrt 2) = (1 / 2) / Real.sqrt 2) ∧
    ((moveTargetOver jumpMesh.dtMathSqrtf origin.toOver entry.toOver false true).x
        = origin.toOver.x + stepFraction (false || true) (1 / 4)
            * (entry.toOver.x - origin.toOver.x) ∧
      stepLength (false || true) (1 / 4 : ℚ) = min (1 / 4) (1 / 2) ∧
      stepFraction (false || true) (1 / 4 : ℚ) ≤ 1 ∧
      stepFraction (false || true) (1 / 4 : ℚ) = 1 ∧
      moveTarget jumpMesh origin entry false true = entry) ∧
    ((moveTargetOver jumpMesh.dtMathSqrtf origin.toOver entry.toOver false false).x
        = origin.toOver.x + stepFraction (false || false) (1 / 4)
            * (entry.toOver.x - origin.toOver.x) ∧
      stepLength (false || false) (1 / 4 : ℚ) = 1 / 2 ∧
      stepFraction (false || false) (1 / 4 : ℚ) = (1 / 2) / (1 / 4) ∧
      moveTarget jumpMesh origin entry false false = ⟨1 / 2, 0, 0⟩) := by
  have hdot : dtVdotOver (dtVsubOver (⟨1, 1, 0⟩ : Vec3Over ℝ) ⟨0, 0, 0⟩)
      (dtVsubOver (⟨1, 1, 0⟩ : Vec3Over ℝ) ⟨0, 0, 0⟩) = 2 := by
    simp only [dtVdotOver, dtVsubOver]
    norm_num
  have hR := moveTarget_step Real.sqrt ⟨0, 0, 0⟩ ⟨1, 1, 0⟩ false false (Real.sqrt 2)
    (by rw [hdot])
    (by rw [hdot, Real.mul_self_sqrt (by norm_num)])
    (Real.sqrt_pos.2 (by norm_num))
  have hC := moveTarget_step jumpMesh.dtMathSqrtf origin.toOver entry.toOver false true
    (1 / 4) (by decide!) (by decide!) (by norm_num)
  have hI := moveTarget_step jumpMesh.dtMathSqrtf origin.toOver entry.toOver false false
    (1 / 4) (by decide!) (by decide!) (by norm_num)
  exact ⟨⟨hR.2.2.2.1, hR.2.2.2.2.2.2.1 rfl⟩,
    ⟨hC.1, (hC.2.2.2.2.2.1 rfl).1, (hC.2.2.2.2.2.1 rfl).2.2, by decide!, by decide!⟩,
    ⟨hI.1, (hI.2.2.2.2.2.2.1 rfl).1, (hI.2.2.2.2.2.2.1 rfl).2, by decide!⟩⟩

end NavMesh

/-! ## The face a particle bounces off -/

namespace Particle3DBoxCollider

open Examples

theorem isSmallestValue_eq_all (c : Particle3DBoxCollider) (v : ℚ) (pos : Vec3) :
    isSmallestValue c v pos = (faceDistances c pos).all (fun w => decide (v ≤ w)) := by
  simp [isSmallestValue, faceDistances, Bool.and_assoc]

/-- A non-empty list of rationals has a member that is at most every member. -/
theorem exists_least (ds : List ℚ) (h : ds ≠ []) : ∃ v ∈ ds, ∀ w ∈ ds, v ≤ w := by
  induction ds with
  | nil => exact absurd rfl h
  | cons x rest ih =>
    cases rest with
    | nil => exact ⟨x, by simp, by simp⟩
    | cons y rest2 =>
      obtain ⟨v, hv, hle⟩ := ih (by simp)
      rcases le_total x v with hxv | hvx
      · refine ⟨x, by simp, ?_⟩
        intro w hw
        rcases List.mem_cons.1 hw with rfl | hw
        · exact le_refl _
        · exact le_trans hxv (hle w hw)
      · refine ⟨v, List.mem_cons_of_mem _ hv, ?_⟩
        intro w hw
        rcases List.mem_cons.1 hw with rfl | hw
        · exact hvx
        · exact hle w hw

/-- Some face always qualifies. -/
theorem nearestFace_lt (c : Particle3DBoxCollider) (pos : Vec3) : nearestFace c pos < 6 := by
  obtain ⟨v, hv, hle⟩ := exists_least (faceDistances c pos) (by simp [faceDistances])
  have h : (faceDistances c pos).findIdx
      (fun v => (faceDistances c pos).all (fun w => decide (v ≤ w)))
      < (faceDistances c pos).length :=
    List.findIdx_lt_length_of_exists ⟨v, hv, by simpa using hle⟩
  have hlen : (faceDistances c pos).length = 6 := rfl
  unfold nearestFace
  omega

/-- The if-chain of the source, with the change `f` made to the component it picks, is
the change `f` on the axis of the nearest face. -/
theorem chain_eq_onAxis (c : Particle3DBoxCollider) (pos dir : Vec3) (f : ℚ → ℚ) :
    (if isSmallestValue c (pos.x - c.xmin) pos then { dir with x := f dir.x }
      else if isSmallestValue c (c.xmax - pos.x) pos then { dir with x := f dir.x }
      else if isSmallestValue c (pos.y - c.ymin) pos then { dir with y := f dir.y }
      else if isSmallestValue c (c.ymax - pos.y) pos then { dir with y := f dir.y }
      else if isSmallestValue c (pos.z - c.zmin) pos then { dir with z := f dir.z }
      else if isSmallestValue c (c.zmax - pos.z) pos then { dir with z := f dir.z }
      else dir) = onAxis f (nearestFace c pos / 2) dir := by
  have hn : nearestFace c pos
      = [pos.x - c.xmin, c.xmax - pos.x, pos.y - c.ymin, c.ymax - pos.y,
         pos.z - c.zmin, c.zmax - pos.z].findIdx (fun v => isSmallestValue c v pos) := by
    unfold nearestFace
    have hp : (fun v => (faceDistances c pos).all (fun w => decide (v ≤ w)))
        = fun v => isSmallestValue c v pos :=
      funext fun v => (isSmallestValue_eq_all c v pos).symm
    rw [hp]
    rfl
  rw [hn]
  simp only [List.findIdx_cons, List.findIdx_nil]
  cases isSmallestValue c (pos.x - c.xmin) pos <;>
  cases isSmallestValue c (c.xmax - pos.x) pos <;>
  cases isSmallestValue c (pos.y - c.ymin) pos <;>
  cases isSmallestValue c (c.ymax - pos.y) pos <;>
  cases isSmallestValue c (pos.z - c.zmin) pos <;>
  cases isSmallestValue c (c.zmax - pos.z) pos <;>
  rfl

/-- The nearest face is at the minimum of the six distances, and no face before it is. -/
theorem nearestFace_least (c : Particle3DBoxCollider) (pos : Vec3) :
    (∃ v, (faceDistances c pos)[nearestFace c pos]? = some v ∧
      ∀ w ∈ faceDistances c pos, v ≤ w) ∧
    (∀ j v, j < nearestFace c pos → (faceDistances c pos)[j]? = some v →
      ∃ w ∈ faceDistances c pos, w < v) := by
  have hlt : nearestFace c pos < (faceDistances c pos).length := nearestFace_lt c pos
  constructor
  · refine ⟨(faceDistances c pos)[nearestFace c pos], List.getElem?_eq_getElem hlt, ?_⟩
    have hget : (faceDistances c pos)[(faceDistances c pos).findIdx
        (fun v => (faceDistances c pos).all (fun w => decide (v ≤ w)))]?
        = some ((faceDistances c pos)[nearestFace c pos]) := List.getElem?_eq_getElem hlt
    have h := List.findIdx_of_getElem?_eq_some hget
    simpa using h
  · intro j v hj hv
    have hjl : j < (faceDistances c pos).length := by omega
    have h : (fun v => (faceDistances c pos).all (fun w => decide (v ≤ w)))
        ((faceDistances c pos).get ⟨j, hjl⟩) = false :=
      List.not_of_lt_findIdx hj
    rw [List.getElem?_eq_getElem hjl] at hv
    simp only [Option.some.injEq] at hv
    simp only [List.get_eq_getElem] at h
    subst hv
    simp only [List.all_eq_false, decide_eq_true_eq, not_le] at h
    exact h

/-- C19: for every box and particle, some face always qualifies as nearest, the first
face in the order x-min, x-max, y-min, y-max, z-min, z-max whose signed distance to the
particle is the minimum of the six (every earlier face has a larger distance than some
face). With `CT_BOUNCE` the direction after the call is the direction with exactly the
component of that face's axis negated and then all components multiplied by the
bouncyness; with `CT_FLOW` that same component is set to zero and all components are
multiplied by minus the friction. The position is unchanged. -/
theorem direction_after_collision (c : Particle3DBoxCollider) (p : Particle3D) :
    nearestFace c p.position / 2 < 3 ∧
    (∃ v, (faceDistances c p.position)[nearestFace c p.position]? = some v ∧
      ∀ w ∈ faceDistances c p.position, v ≤ w) ∧
    (∀ j v, j < nearestFace c p.position → (faceDistances c p.position)[j]? = some v →
      ∃ w ∈ faceDistances c p.position, w < v) ∧
    (c.collisionType = CollisionType.CT_BOUNCE →
      calculateDirectionAfterCollision c p =
        { position := p.position,
          direction := (onAxis (fun x => -x) (nearestFace c p.position / 2)
            p.direction).scale c.bouncyness }) ∧
    (c.collisionType = CollisionType.CT_FLOW →
      calculateDirectionAfterCollision c p =
        { position := p.position,
          direction := (onAxis (fun _ => 0) (nearestFace c p.position / 2)
            p.direction).scale (-c.friction) }) := by
  have hlt := nearestFace_lt c p.position
  obtain ⟨h1, h2⟩ := nearestFace_least c p.position
  refine ⟨by omega, h1, h2, ?_, ?_⟩
  · intro hct
    have hf : (fun x : ℚ => x * -1) = fun x => -x := funext fun x => mul_neg_one x
    have hc := chain_eq_onAxis c p.position p.direction (fun x => x * -1)
    rw [hf] at hc
    simp only [calculateDirectionAfterCollision, hct]
    rw [← hc]
  · intro hct
    have hc := chain_eq_onAxis c p.position p.direction (fun _ => 0)
    simp only [calculateDirectionAfterCollision, hct]
    rw [← hc]

/-- Witness of `direction_after_collision`: the particle `nearTop` in `bounceBox` and in
`flowBox`; the nearest face is y-max, face 3, and the y component is the one changed. -/
theorem direction_after_collision_witness :
    nearestFace bounceBox nearTop.position = 3 ∧
      calculateDirectionAfterCollision bounceBox nearTop =
        { position := nearTop.position,
          direction := (onAxis (fun x => -x) (nearestFace bounceBox nearTop.position / 2)
            nearTop.direction).scale bounceBox.bouncyness } ∧
      calculateDirectionAfterCollision bounceBox nearTop
        = { position := ⟨7, 9, 3⟩, direction := ⟨1 / 2, -1, 2⟩ } ∧
      calculateDirectionAfterCollision flowBox nearTop =
        { position := nearTop.position,
          direction := (onAxis (fun _ => 0) (nearestFace flowBox nearTop.position / 2)
            nearTop.direction).scale (-flowBox.friction) } ∧
      calculateDirectionAfterCollision flowBox nearTop
        = { position := ⟨7, 9, 3⟩, direction := ⟨-(1 / 4), 0, -1⟩ } :=
  ⟨by decide!,
   (direction_after_collision bounceBox nearTop).2.2.2.1 rfl, by decide!,
   (direction_after_collision flowBox nearTop).2.2.2.2 rfl, by decide!⟩

end Particle3DBoxCollider

end cocos2d
